import Mathlib

/-!
Verification development for the automated-tax-rulings scraper.

The Python source is shallowly embedded: dates are triples of naturals,
strings are `String`/`List Char`, `datetime.strptime` is modelled by
per-format matchers that mirror CPython's `_strptime` regexes (including
their alternation order and backtracking), `re` patterns used by the code
are modelled by dedicated scanning functions, and the Google-Sheets
collaborator is modelled by a row store plus boolean fault flags for the
transport/auth operations.
-/

namespace TaxRulings

/-! ## Date model (Python `datetime.date`) -/

/-- A calendar date, as in Python's `datetime.date` (year 1..9999). -/
structure PDate where
  year : Nat
  month : Nat
  day : Nat
deriving DecidableEq, Repr

/-- Gregorian leap-year rule (as used by `datetime`). -/
def isLeapYear (y : Nat) : Bool :=
  (y % 4 == 0 && y % 100 != 0) || (y % 400 == 0)

/-- Number of days in a month. -/
def daysInMonth (y m : Nat) : Nat :=
  if m = 2 then (if isLeapYear y then 29 else 28)
  else if m = 4 ∨ m = 6 ∨ m = 9 ∨ m = 11 then 30
  else 31

/-- Validity of a `PDate`, matching `datetime.date`'s constructor checks. -/
def PDate.valid (t : PDate) : Prop :=
  1 ≤ t.year ∧ t.year ≤ 9999 ∧ 1 ≤ t.month ∧ t.month ≤ 12 ∧
    1 ≤ t.day ∧ t.day ≤ daysInMonth t.year t.month

instance (t : PDate) : Decidable t.valid := by
  unfold PDate.valid; infer_instance

/-- Proleptic-Gregorian ordinal of a date (0001-01-01 has ordinal 1),
the quantity underlying `date.toordinal`/`timedelta` arithmetic. -/
def toOrdinal (t : PDate) : Int :=
  let y : Int := (t.year : Int) - (if t.month ≤ 2 then 1 else 0)
  let mm : Int := if t.month ≤ 2 then (t.month : Int) + 9 else (t.month : Int) - 3
  let doy : Int := (153 * mm + 2) / 5 + ((t.day : Int) - 1)
  365 * y + y / 4 - y / 100 + y / 400 + doy - 305

/-- Python's `date.weekday()`: Monday = 0 … Sunday = 6. -/
def pyWeekday (t : PDate) : Nat := ((toOrdinal t + 6) % 7).toNat

/-- The previous calendar day (`date - timedelta(days=1)`). -/
def predDay (t : PDate) : PDate :=
  if 1 < t.day then ⟨t.year, t.month, t.day - 1⟩
  else if 1 < t.month then ⟨t.year, t.month - 1, daysInMonth t.year (t.month - 1)⟩
  else ⟨t.year - 1, 12, 31⟩

/-! ## Rendering (`strftime`) -/

/-- The decimal digit character for `n` (callers keep `n < 10`). -/
def digitChar : Nat → Char
  | 0 => '0' | 1 => '1' | 2 => '2' | 3 => '3' | 4 => '4'
  | 5 => '5' | 6 => '6' | 7 => '7' | 8 => '8' | _ => '9'

/-- Two-digit zero-padded rendering (`%d`, `%m` output). -/
def pad2Chars (n : Nat) : List Char := [digitChar (n / 10 % 10), digitChar (n % 10)]

/-- Four-digit rendering of a year (`%Y` output for years 1000..9999). -/
def yearChars (y : Nat) : List Char :=
  [digitChar (y / 1000 % 10), digitChar (y / 100 % 10), digitChar (y / 10 % 10),
    digitChar (y % 10)]

/-- Full month name (`%B`). -/
def fullMonthChars : Nat → List Char
  | 1 => ['J','a','n','u','a','r','y']
  | 2 => ['F','e','b','r','u','a','r','y']
  | 3 => ['M','a','r','c','h']
  | 4 => ['A','p','r','i','l']
  | 5 => ['M','a','y']
  | 6 => ['J','u','n','e']
  | 7 => ['J','u','l','y']
  | 8 => ['A','u','g','u','s','t']
  | 9 => ['S','e','p','t','e','m','b','e','r']
  | 10 => ['O','c','t','o','b','e','r']
  | 11 => ['N','o','v','e','m','b','e','r']
  | _ => ['D','e','c','e','m','b','e','r']

/-- Abbreviated month name (`%b`). -/
def abbrevMonthChars : Nat → List Char
  | 1 => ['J','a','n'] | 2 => ['F','e','b'] | 3 => ['M','a','r'] | 4 => ['A','p','r']
  | 5 => ['M','a','y'] | 6 => ['J','u','n'] | 7 => ['J','u','l'] | 8 => ['A','u','g']
  | 9 => ['S','e','p'] | 10 => ['O','c','t'] | 11 => ['N','o','v'] | _ => ['D','e','c']

/-- `strftime("%d %B %Y")` — the system's canonical long form. -/
def renderLongChars (t : PDate) : List Char :=
  pad2Chars t.day ++ ' ' :: (fullMonthChars t.month ++ ' ' :: yearChars t.year)

/-- `strftime("%b %d, %Y")` — the short "Taxsutra" form. -/
def renderShortChars (t : PDate) : List Char :=
  abbrevMonthChars t.month ++ ' ' :: (pad2Chars t.day ++ ',' :: ' ' :: yearChars t.year)

/-! ## `date_utils` date-set functions (parameterised by `date.today()`) -/

/-- `get_today_string`: today in `'%d %B %Y'`. -/
def get_today_string (today : PDate) : String := ⟨renderLongChars today⟩

/-- `get_yesterday_string`: yesterday in `'%b %d, %Y'`. -/
def get_yesterday_string (today : PDate) : String := ⟨renderShortChars (predDay today)⟩

/-- `get_weekend_dates`: `[Saturday, Sunday]` (short form) when today is
Monday, else `[yesterday]`.  `today - timedelta(days=2)` is `predDay (predDay today)`. -/
def get_weekend_dates (today : PDate) : List String :=
  if pyWeekday today = 0 then
    [⟨renderShortChars (predDay (predDay today))⟩, ⟨renderShortChars (predDay today)⟩]
  else [⟨renderShortChars (predDay today)⟩]

/-- `BaseScraper.get_target_dates`. -/
def get_target_dates (today : PDate) : List String :=
  if pyWeekday today = 5 ∨ pyWeekday today = 6 then []
  else if pyWeekday today = 0 then get_weekend_dates today
  else [get_yesterday_string today]

/-! ## `strptime` model

CPython's `_strptime` compiles each format into a regex: `%d` becomes
`3[01]|[12]\d|0[1-9]|[1-9]| [1-9]`, `%m` becomes `1[0-2]|0[1-9]|[1-9]`,
`%Y` becomes `\d\d\d\d`, `%B`/`%b` become case-insensitive alternations of
the month names, literal whitespace becomes `\s+`, and the whole string
must be consumed.  The matchers below reproduce those regexes, including
the alternation order (lists of candidates tried in order = backtracking). -/

/-- Numeric value of a digit character. -/
def digitVal (c : Char) : Nat := c.toNat - 48

/-- Candidates for `%d` (`3[01]|[12]\d|0[1-9]|[1-9]| [1-9]`), in regex order. -/
def dayAlts : List Char → List (Nat × List Char)
  | a :: b :: r =>
    (if a = '3' ∧ (b = '0' ∨ b = '1') then [(30 + digitVal b, r)] else []) ++
    (if (a = '1' ∨ a = '2') ∧ b.isDigit then [(10 * digitVal a + digitVal b, r)] else []) ++
    (if a = '0' ∧ b.isDigit ∧ b ≠ '0' then [(digitVal b, r)] else []) ++
    (if a.isDigit ∧ a ≠ '0' then [(digitVal a, b :: r)] else []) ++
    (if a = ' ' ∧ b.isDigit ∧ b ≠ '0' then [(digitVal b, r)] else [])
  | [a] => if a.isDigit ∧ a ≠ '0' then [(digitVal a, [])] else []
  | [] => []

/-- Candidates for `%m` (`1[0-2]|0[1-9]|[1-9]`), in regex order. -/
def monthAlts : List Char → List (Nat × List Char)
  | a :: b :: r =>
    (if a = '1' ∧ (b = '0' ∨ b = '1' ∨ b = '2') then [(10 + digitVal b, r)] else []) ++
    (if a = '0' ∧ b.isDigit ∧ b ≠ '0' then [(digitVal b, r)] else []) ++
    (if a.isDigit ∧ a ≠ '0' then [(digitVal a, b :: r)] else [])
  | [a] => if a.isDigit ∧ a ≠ '0' then [(digitVal a, [])] else []
  | [] => []

/-- `%Y`: exactly four digits. -/
def parseY : List Char → Option (Nat × List Char)
  | a :: b :: c :: d :: r =>
    if a.isDigit ∧ b.isDigit ∧ c.isDigit ∧ d.isDigit then
      some (1000 * digitVal a + 100 * digitVal b + 10 * digitVal c + digitVal d, r)
    else none
  | _ => none

/-- Literal whitespace in the format (`\s+`). -/
def ws1 : List Char → Option (List Char)
  | c :: r => if c.isWhitespace then some (r.dropWhile Char.isWhitespace) else none
  | [] => none

/-- A literal character in the format. -/
def lit (c : Char) : List Char → Option (List Char)
  | a :: r => if a = c then some r else none
  | [] => none

/-- Case-insensitive match of the fixed word `w` (given in lowercase)
against a prefix of `s`; returns the remainder. -/
def matchCI : List Char → List Char → Option (List Char)
  | [], s => some s
  | _ :: _, [] => none
  | n :: ns, c :: cs => if c.toLower = n then matchCI ns cs else none

/-- Lowercased full month names with their numbers (for `%B`). -/
def fullMonthTbl : List (Nat × List Char) :=
  [(1, ['j','a','n','u','a','r','y']), (2, ['f','e','b','r','u','a','r','y']),
   (3, ['m','a','r','c','h']), (4, ['a','p','r','i','l']), (5, ['m','a','y']),
   (6, ['j','u','n','e']), (7, ['j','u','l','y']), (8, ['a','u','g','u','s','t']),
   (9, ['s','e','p','t','e','m','b','e','r']), (10, ['o','c','t','o','b','e','r']),
   (11, ['n','o','v','e','m','b','e','r']), (12, ['d','e','c','e','m','b','e','r'])]

/-- Lowercased abbreviated month names with their numbers (for `%b`). -/
def abbrevMonthTbl : List (Nat × List Char) :=
  [(1, ['j','a','n']), (2, ['f','e','b']), (3, ['m','a','r']), (4, ['a','p','r']),
   (5, ['m','a','y']), (6, ['j','u','n']), (7, ['j','u','l']), (8, ['a','u','g']),
   (9, ['s','e','p']), (10, ['o','c','t']), (11, ['n','o','v']), (12, ['d','e','c'])]

/-- `%B`: one of the full month names, case-insensitively. -/
def parseFullMonth (s : List Char) : Option (Nat × List Char) :=
  fullMonthTbl.findSome? fun p => (matchCI p.2 s).map fun r => (p.1, r)

/-- `%b`: one of the abbreviated month names, case-insensitively. -/
def parseAbbrevMonth (s : List Char) : Option (Nat × List Char) :=
  abbrevMonthTbl.findSome? fun p => (matchCI p.2 s).map fun r => (p.1, r)

/-- `strptime` with `"%d %B %Y"` (resp. `"%d %b %Y"` via `pm`):
the regex part only; returns `(year, month, day)`. -/
def fmtDxY (pm : List Char → Option (Nat × List Char)) (s : List Char) :
    Option (Nat × Nat × Nat) :=
  (dayAlts s).findSome? fun p => do
    let s1 ← ws1 p.2
    let (m, s2) ← pm s1
    let s3 ← ws1 s2
    let (y, s4) ← parseY s3
    if s4 = [] then some (y, m, p.1) else none

/-- `strptime` with `"%B %d, %Y"` (resp. `"%b %d, %Y"` via `pm`). -/
def fmtXdY (pm : List Char → Option (Nat × List Char)) (s : List Char) :
    Option (Nat × Nat × Nat) := do
  let (m, s1) ← pm s
  let s2 ← ws1 s1
  (dayAlts s2).findSome? fun p => do
    let s3 ← lit ',' p.2
    let s4 ← ws1 s3
    let (y, s5) ← parseY s4
    if s5 = [] then some (y, m, p.1) else none

/-- `strptime` with `"%d-%m-%Y"` / `"%d/%m/%Y"` (separator `sep`). -/
def fmtDmY (sep : Char) (s : List Char) : Option (Nat × Nat × Nat) :=
  (dayAlts s).findSome? fun p => do
    let s1 ← lit sep p.2
    (monthAlts s1).findSome? fun q => do
      let s2 ← lit sep q.2
      let (y, s3) ← parseY s2
      if s3 = [] then some (y, q.1, p.1) else none

/-- `strptime` with `"%Y-%m-%d"`. -/
def fmtYmd (s : List Char) : Option (Nat × Nat × Nat) := do
  let (y, s1) ← parseY s
  let s2 ← lit '-' s1
  (monthAlts s2).findSome? fun q => do
    let s3 ← lit '-' q.2
    (dayAlts s3).findSome? fun p =>
      if p.2 = [] then some (y, q.1, p.1) else none

/-- The `date_formats` list of `normalize_date_for_compare`, in order. -/
def date_formats : List (List Char → Option (Nat × Nat × Nat)) :=
  [fmtDxY parseFullMonth, fmtDxY parseAbbrevMonth,
   fmtXdY parseFullMonth, fmtXdY parseAbbrevMonth,
   fmtDmY '-', fmtDmY '/', fmtYmd]

/-- `datetime(year, month, day)` construction: `some` iff the values form a
valid date (otherwise Python raises `ValueError`). -/
def mkDate (y m d : Nat) : Option PDate :=
  if (PDate.mk y m d).valid then some ⟨y, m, d⟩ else none

/-- One pass over the `date_formats` loop: each `strptime` call is the
regex match followed by the `datetime` construction; a `ValueError` from
either step moves on to the next format. -/
def tryFormats (s : List Char) : Option PDate :=
  date_formats.findSome? fun f => (f s).bind fun v => mkDate v.1 v.2.1 v.2.2

/-! ## Ordinal-suffix stripping and Python string helpers -/

/-- Does the two-character sequence `a b` spell one of the ordinal
suffixes `st|nd|rd|th` (case-sensitive, as in the `re.sub` pattern)? -/
def isOrdSuffix (a b : Char) : Bool :=
  (a = 's' ∧ b = 't') ∨ (a = 'n' ∧ b = 'd') ∨ (a = 'r' ∧ b = 'd') ∨ (a = 't' ∧ b = 'h')

/-- Scanner for `re.sub(r'(\d+)(st|nd|rd|th)', r'\1', s)`: the flag records
whether the previous character was a digit; a suffix directly after a digit
run is dropped and scanning resumes after it. -/
def goStrip : Bool → List Char → List Char
  | _, [] => []
  | prevD, a :: rest =>
    if a.isDigit then a :: goStrip true rest
    else if prevD then
      match rest with
      | b :: r => if isOrdSuffix a b then goStrip false r else a :: goStrip false (b :: r)
      | [] => [a]
    else a :: goStrip false rest

/-- `re.sub(r'(\d+)(st|nd|rd|th)', r'\1', s)`. -/
def stripOrdinals (l : List Char) : List Char := goStrip false l

/-- Drop trailing whitespace. -/
def dropTrailWs (l : List Char) : List Char :=
  l.foldr (fun c acc => if acc = [] ∧ c.isWhitespace then [] else c :: acc) []

/-- Python `str.strip()`. -/
def pyStrip (l : List Char) : List Char :=
  (dropTrailWs l).dropWhile Char.isWhitespace

/-! ## Regex fallback of `normalize_date_for_compare` -/

/-- `\d{1,2}` candidates (greedy: two digits, then one), in regex order. -/
def twoOrOneDigit : List Char → List (Nat × List Char)
  | a :: b :: r =>
    (if a.isDigit ∧ b.isDigit then [(10 * digitVal a + digitVal b, r)] else []) ++
    (if a.isDigit then [(digitVal a, b :: r)] else [])
  | [a] => if a.isDigit then [(digitVal a, [])] else []
  | [] => []

/-- The separator class `[-./]`. -/
def litSep : List Char → Option (List Char)
  | a :: r => if a = '-' ∨ a = '.' ∨ a = '/' then some r else none
  | [] => none

/-- Match `(\d{1,2})[-./](\d{1,2})[-./](\d{4})` at the current position;
returns `(day, month, year)` (the code's `day, month, year = groups`).
No end anchor: trailing characters are allowed. -/
def pat1At (s : List Char) : Option (Nat × Nat × Nat) :=
  (twoOrOneDigit s).findSome? fun p => do
    let s1 ← litSep p.2
    (twoOrOneDigit s1).findSome? fun q => do
      let s2 ← litSep q.2
      let (y, _) ← parseY s2
      some (p.1, q.1, y)

/-- Match `(\d{4})[-./](\d{1,2})[-./](\d{1,2})` at the current position;
returns `(day, month, year)` (the code's `year, month, day = groups`). -/
def pat2At (s : List Char) : Option (Nat × Nat × Nat) := do
  let (y, s1) ← parseY s
  let s2 ← litSep s1
  (twoOrOneDigit s2).findSome? fun q => do
    let s3 ← litSep q.2
    (twoOrOneDigit s3).findSome? fun p => some (p.1, q.1, y)

/-- `re.search`: try the pattern at each position, left to right. -/
def searchPos (f : List Char → Option (Nat × Nat × Nat)) :
    List Char → Option (Nat × Nat × Nat)
  | [] => none
  | a :: r =>
    match f (a :: r) with
    | some v => some v
    | none => searchPos f r

/-- The `date_patterns` fallback loop: pattern 1 over the whole string,
then pattern 2. -/
def regexFallback (s : List Char) : Option (Nat × Nat × Nat) :=
  match searchPos pat1At s with
  | some v => some v
  | none => searchPos pat2At s

/-! ## `normalize_date_for_compare` and comparators -/

/-- `date_utils.normalize_date_for_compare`.  `date_str` is rebound to the
suffix-stripped string by the `re.sub`, so every failure path (no format,
no regex match, or `datetime` raising inside the fallback, caught by the
outer handler) returns the suffix-stripped string. -/
def normalize_date_for_compare (s : String) : String :=
  let cs := stripOrdinals s.toList
  match tryFormats (pyStrip cs) with
  | some t => ⟨renderLongChars t⟩
  | none =>
    match regexFallback cs with
    | some (d, m, y) =>
      match mkDate y m d with
      | some t => ⟨renderLongChars t⟩
      | none => ⟨cs⟩
    | none => ⟨cs⟩

/-- `date_utils.is_today_date` (with `date.today()` as a parameter):
compares the normalised input with the normalised `'%d %B %Y'` rendering
of today. -/
def is_today_date (today : PDate) (date_str : String) : Bool :=
  normalize_date_for_compare date_str == normalize_date_for_compare ⟨renderLongChars today⟩

/-- One pass of `str.split()`: `acc` is the reversed current word. -/
def splitWsAux : List Char → List Char → List (List Char)
  | [], acc => if acc = [] then [] else [acc.reverse]
  | c :: r, acc =>
    if c.isWhitespace then
      if acc = [] then splitWsAux r [] else acc.reverse :: splitWsAux r []
    else splitWsAux r (c :: acc)

/-- Python `str.split()` (split on whitespace runs, no empty parts). -/
def pySplitWs (l : List Char) : List (List Char) := splitWsAux l []

/-- `" ".join(s.split())`. -/
def wsCollapse (l : List Char) : List Char :=
  List.flatten (List.intersperse [' '] (pySplitWs l))

/-- `date_utils.is_target_date`: literal comparison of the
whitespace-collapsed input against each whitespace-collapsed target. -/
def is_target_date (date_string : String) (target_dates : List String) : Bool :=
  if date_string = "" ∨ date_string = "N/A" then false
  else
    let nd := wsCollapse (pyStrip date_string.toList)
    target_dates.any fun t => nd == wsCollapse t.toList

/-! ## `RulingsScraper.scrape_yesterday_rulings` collection loop

The paging loop is flattened into a stream of per-row infos (the DOM
collector is an external collaborator); the detail-page visit only fills
the accepted record's payload, so the accepted rows are the infos
themselves.  The loop state is the accumulated list and the
`found_target_date` flag, and the `elif found_target_date: return`
branch ends the whole scrape. -/

/-- The per-row info extracted from the listing page. -/
structure RInfo where
  url : String
  title : String
  published_date : String
deriving DecidableEq, Repr

/-- The record-classification loop of `scrape_yesterday_rulings`. -/
def rulingsLoop (targets : List String) (today : PDate) :
    List RInfo → List RInfo → Bool → List RInfo
  | [], acc, _ => acc
  | r :: rest, acc, found =>
    if is_target_date r.published_date targets then
      rulingsLoop targets today rest (acc ++ [r]) true
    else if is_today_date today r.published_date then
      rulingsLoop targets today rest acc found
    else if found then acc
    else rulingsLoop targets today rest acc found

/-- `scrape_yesterday_rulings`, over a given record stream. -/
def scrape_yesterday_rulings (targets : List String) (today : PDate)
    (stream : List RInfo) : List RInfo :=
  rulingsLoop targets today stream [] false

/-! ## `SheetsUploader` model

A Python dict record is an association list; the sheet is a list of rows
(row *n* of the sheet is index *n - 1*); the Google-Sheets service is a
set of boolean fault flags (each `False` flag makes the corresponding
API call raise, which the Python code catches as shown in each model). -/

/-- A raw scraped record (string-keyed dict). -/
abbrev Rec := List (String × String)

/-- `dict.get(key, default)`. -/
def pyGet (r : Rec) (k dflt : String) : String :=
  match r.find? (fun p => p.1 == k) with
  | some p => p.2
  | none => dflt

/-- Exact (case-sensitive) match of word `w` against a prefix of `s`;
returns the remainder. -/
def matchExact : List Char → List Char → Option (List Char)
  | [], s => some s
  | _ :: _, [] => none
  | p :: ps, c :: cs => if c = p then matchExact ps cs else none

/-- Generic `re.search` position scan for the helper patterns. -/
def searchAt {α : Type} (f : List Char → Option α) : List Char → Option α
  | [] => none
  | a :: r =>
    match f (a :: r) with
    | some v => some v
    | none => searchAt f r

/-- Python `pat in s` (substring containment). -/
def containsSub (s pat : List Char) : Bool :=
  (searchAt (matchExact pat) s).isSome

/-- ASCII letter class `[A-Za-z]`. -/
def isAlphaChar (c : Char) : Bool := c.isAlpha

/-- Uppercase class `[A-Z]`. -/
def isUpperChar (c : Char) : Bool := 'A' ≤ c ∧ c ≤ 'Z'

/-- Match `\[(TS-\d+-[A-Z]+-\d+\([A-Z]+\))\]` at the current position;
returns `group(0)` (every character run is maximal — the following
delimiter is outside its class, so the greedy regex needs no backtracking). -/
def tsAt (s : List Char) : Option (List Char) := do
  let s1 ← matchExact ['[','T','S','-'] s
  let d1 := s1.takeWhile Char.isDigit
  if d1 = [] then none else
  let s2 ← matchExact ['-'] (s1.dropWhile Char.isDigit)
  let u1 := s2.takeWhile isUpperChar
  if u1 = [] then none else
  let s3 ← matchExact ['-'] (s2.dropWhile isUpperChar)
  let d2 := s3.takeWhile Char.isDigit
  if d2 = [] then none else
  let s4 ← matchExact ['('] (s3.dropWhile Char.isDigit)
  let u2 := s4.takeWhile isUpperChar
  if u2 = [] then none else
  let _ ← matchExact [')',']'] (s4.dropWhile isUpperChar)
  some (['[','T','S','-'] ++ d1 ++ '-' :: u1 ++ '-' :: d2 ++ '(' :: u2 ++ [')',']'])

/-- `SheetsUploader.extract_case_reference`. -/
def extract_case_reference (ruling : Rec) : String :=
  let citation := pyGet ruling "Citation" "N/A"
  if citation ≠ "N/A" then
    match searchAt tsAt citation.toList with
    | some m => ⟨m⟩
    | none => citation
  else
    match searchAt tsAt (pyGet ruling "Title" "").toList with
    | some m => ⟨m⟩
    | none => ""

/-- Match `word ([A-Za-z]+)` at the current position (`word` ends in a
space); returns `(group(0), group(1))`. -/
def wordCapAt (word : List Char) (s : List Char) : Option (List Char × List Char) := do
  let s1 ← matchExact word s
  let run := s1.takeWhile isAlphaChar
  if run = [] then none else some (word ++ run, run)

/-- Match `([A-Za-z]+ Court|Tribunal|ITAT)` at the current position.
For the first alternative the literal starts with a space, which is not a
letter, so the greedy letter run is the maximal one. -/
def genericCourtAt (s : List Char) : Option (List Char) :=
  let run := s.takeWhile isAlphaChar
  match (if run = [] then none else
      (matchExact [' ','C','o','u','r','t'] (s.dropWhile isAlphaChar)).map
        fun _ => run ++ [' ','C','o','u','r','t']) with
  | some m => some m
  | none =>
    match (matchExact "Tribunal".toList s).map fun _ => "Tribunal".toList with
    | some m => some m
    | none => (matchExact "ITAT".toList s).map fun _ => "ITAT".toList

/-- Match `HC\s+([A-Z]{3})` at the current position; returns `group(1)`. -/
def hcAt (s : List Char) : Option (List Char) := do
  let s1 ← matchExact ['H','C'] s
  match s1 with
  | c :: _ =>
    if c.isWhitespace then
      match s1.dropWhile Char.isWhitespace with
      | a :: b :: c2 :: _ =>
        if isUpperChar a ∧ isUpperChar b ∧ isUpperChar c2 then some [a, b, c2] else none
      | _ => none
    else none
  | [] => none

/-- `SheetsUploader.extract_judicial_level_location`. -/
def extract_judicial_level_location (ruling : Rec) : String :=
  let jll := pyGet ruling "Judicial Level & Location" "N/A"
  if jll ≠ "N/A" then jll
  else
    let cli := (pyGet ruling "Case Law Information" "").toList
    match searchAt (wordCapAt "High Court ".toList) cli with
    | some m => ⟨m.1⟩
    | none =>
    match searchAt (matchExact "Supreme Court".toList) cli with
    | some _ => "Supreme Court"
    | none =>
    match searchAt (wordCapAt "ITAT ".toList) cli with
    | some m => ⟨m.1⟩
    | none =>
    match searchAt (wordCapAt "Tribunal ".toList) cli with
    | some m => ⟨m.1⟩
    | none =>
    match searchAt genericCourtAt cli with
    | some m => ⟨m⟩
    | none =>
      if containsSub cli ['H','C'] then
        match searchAt hcAt cli with
        | some g1 => ⟨"High Court ".toList ++ g1⟩
        | none => "N/A"
      else "N/A"

/-- Lowercase a character list (Python `str.lower()`, ASCII range). -/
def toLowerList (l : List Char) : List Char := l.map Char.toLower

/-- The name-part class `[A-Za-z0-9\s\.]`. -/
def isNameChar (c : Char) : Bool := c.isAlphanum ∨ c.isWhitespace ∨ c = '.'

/-- Match `([cls]+)\s+[Vv][sS]\.?\s+([cls]+)` at the current position with
the regex's greedy semantics: all of `\s`, the letters and `'.'` lie in the
class, so the whole match stays inside the maximal class run; group 1 being
greedy selects the rightmost viable `vs` token. Returns the stripped groups. -/
def vsAt (s : List Char) : Option (List Char × List Char) :=
  let run := s.takeWhile isNameChar
  let n := run.length
  if n = 0 then none else
  let ok := fun (j : Nat) =>
    2 ≤ j ∧ j + 1 < n ∧
    (run.getD (j - 1) ' ').isWhitespace ∧
    (run.getD j ' ' = 'V' ∨ run.getD j ' ' = 'v') ∧
    (run.getD (j + 1) ' ' = 'S' ∨ run.getD (j + 1) ' ' = 's') ∧
    (let k := if run.getD (j + 2) ' ' = '.' then j + 3 else j + 2
     k + 1 < n ∧ (run.getD k ' ').isWhitespace)
  match (List.range n).reverse.find? (fun j => decide (ok j)) with
  | none => none
  | some j =>
    let k := if run.getD (j + 2) ' ' = '.' then j + 3 else j + 2
    some (pyStrip (run.take (j - 1)), pyStrip (run.drop (k + 1)))

/-- Match `([cls]+)\s+[Vv]\.\s+([cls]+)` (the second `vs_patterns` entry)
at the current position, with the same greedy semantics as `vsAt`: the whole
match stays inside the maximal class run and group 1 being greedy selects
the rightmost viable `v.` token. Returns the stripped groups. -/
def vs2At (s : List Char) : Option (List Char × List Char) :=
  let run := s.takeWhile isNameChar
  let n := run.length
  if n = 0 then none else
  let ok := fun (j : Nat) =>
    2 ≤ j ∧ j + 1 < n ∧
    (run.getD (j - 1) ' ').isWhitespace ∧
    (run.getD j ' ' = 'V' ∨ run.getD j ' ' = 'v') ∧
    run.getD (j + 1) ' ' = '.' ∧
    j + 3 < n ∧ (run.getD (j + 2) ' ').isWhitespace
  match (List.range n).reverse.find? (fun j => decide (ok j)) with
  | none => none
  | some j => some (pyStrip (run.take (j - 1)), pyStrip (run.drop (j + 3)))

/-- `SheetsUploader.extract_case_name`. -/
def extract_case_name (ruling : Rec) : String :=
  let case_name := pyGet ruling "Case Name" "N/A"
  if case_name ≠ "N/A" then case_name
  else
    let taxpayer := pyGet ruling "Taxpayer Name" "N/A"
    let cli := pyGet ruling "Case Law Information" ""
    if taxpayer ≠ "N/A" then
      if containsSub (toLowerList cli.toList) "commissioner".toList ∨
          containsSub (toLowerList cli.toList) "cit".toList then
        ⟨"Commissioner of Income Tax Vs ".toList ++ taxpayer.toList⟩
      else ⟨taxpayer.toList ++ " Vs Commissioner of Income Tax".toList⟩
    else
      match searchAt vsAt cli.toList with
      | some g => ⟨g.1 ++ " Vs ".toList ++ g.2⟩
      | none =>
      match searchAt vs2At cli.toList with
      | some g => ⟨g.1 ++ " Vs ".toList ++ g.2⟩
      | none =>
        let l0 := cli.toList.takeWhile (fun c => c ≠ '\n')
        if l0 ≠ [] then ⟨pyStrip l0⟩
        else if 50 < cli.length then ⟨cli.toList.take 50⟩ else cli

/-- Match `word\s+([A-Za-z]+)` at the current position; returns `group(1)`
(used by `extract_court_abbreviation`, whose patterns have `\s+` between
the word and the captured location). -/
def wordWsCapAt (word : List Char) (s : List Char) : Option (List Char) := do
  let s1 ← matchExact word s
  match s1 with
  | c :: _ =>
    if c.isWhitespace then
      let run := (s1.dropWhile Char.isWhitespace).takeWhile isAlphaChar
      if run = [] then none else some run
    else none
  | [] => none

/-- `SheetsUploader.extract_court_abbreviation`. -/
def extract_court_abbreviation (jll : String) : String :=
  let l := jll.toList
  let court_abbr : String :=
    if containsSub l "High Court".toList then "HC"
    else if containsSub l "Supreme Court".toList then "SC"
    else if containsSub l "ITAT".toList then "ITAT"
    else if containsSub l "Tribunal".toList then "Tribunal"
    else "Court"
  let location_abbr : List Char :=
    if containsSub l "High Court".toList then
      match searchAt (wordWsCapAt "High Court".toList) l with
      | some g1 => (g1.take 3).map Char.toUpper
      | none => []
    else if containsSub l "ITAT".toList then
      match searchAt (wordWsCapAt "ITAT".toList) l with
      | some g1 => (g1.take 3).map Char.toUpper
      | none => []
    else []
  if location_abbr ≠ [] then ⟨court_abbr.toList ++ ' ' :: location_abbr⟩
  else court_abbr

/-- `SheetsUploader.get_sheet_headers`. -/
def get_sheet_headers : List String := ["Date", "Category", "Sub-Category", "Summary"]

/-- `SheetsUploader.prepare_data_for_upload`: headers first, then one
4-column row per ruling. -/
def prepare_data_for_upload (rulings : List Rec) : List (List String) :=
  get_sheet_headers :: rulings.map fun ruling =>
    let dv := pyGet ruling "Ruling Date" "N/A"
    let date_value := if dv = "N/A" then pyGet ruling "Published Date" "N/A" else dv
    let title := pyGet ruling "Title" ""
    let conclusion := pyGet ruling "Conclusion" ""
    let case_reference := extract_case_reference ruling
    let jll := extract_judicial_level_location ruling
    let case_name := extract_case_name ruling
    let court_abbr := extract_court_abbreviation jll
    let summary_line := case_name ++ " - " ++ jll ++ " - " ++ case_reference ++ ":" ++ court_abbr
    let summary := title ++ "\n\n" ++ conclusion ++ "\n\n" ++ summary_line
    [date_value, "Direct Tax", "Case Laws", summary]

/-! ## Store and service model -/

/-- One sheet row. -/
abbrev SRow := List String

/-- The sheet contents: row `n` (1-based) is index `n - 1`.  `values.get`
on column `A:A` returns one entry per populated row, so the populated row
count is the list length. -/
abbrev Store := List SRow

/-- Fault flags for the Google-Sheets collaborator: a `false` flag makes
the corresponding API call raise (`HttpError`/`Exception`), which the
Python code catches where shown in each function model. -/
structure SheetsEnv where
  credsExist : Bool
  authOk : Bool
  readOk : Bool
  clearOk : Bool
  writeOk : Bool
  metaOk : Bool
deriving DecidableEq, Repr

/-- The uploader's cached-service state (`self.service is not None`). -/
structure Uploader where
  service : Bool
deriving DecidableEq, Repr

/-- `SheetsUploader.authenticate`: `False` when the credential file is
missing, `False` when building credentials/service raises, else `True`
with the service cached. -/
def authenticate (env : SheetsEnv) : Bool × Uploader :=
  if ¬env.credsExist then (false, ⟨false⟩)
  else if ¬env.authOk then (false, ⟨false⟩)
  else (true, ⟨true⟩)

/-- The `if not self.service: if not self.authenticate(): return False`
prologue shared by every upload method. -/
def ensureService (env : SheetsEnv) (u : Uploader) : Bool × Uploader :=
  if u.service then (true, u) else authenticate env

/-- `SheetsUploader.get_next_available_row`: 1 on an empty column,
`count + 1` otherwise; an `HttpError` on the read is caught and defaults
the cursor to row 1. -/
def get_next_available_row (env : SheetsEnv) (store : Store) : Nat :=
  if env.readOk then (if store = [] then 1 else store.length + 1) else 1

/-- `values().update` starting at row `start + 1`: overwrites the target
rows in place and extends the sheet as needed; rows outside the written
range keep their contents. -/
def overwriteAt (store : Store) (start : Nat) (rows : List SRow) : Store :=
  (List.range (max store.length (start + rows.length))).map fun i =>
    if start ≤ i ∧ i < start + rows.length then rows.getD (i - start) []
    else store.getD i []

/-- `SheetsUploader.upload_data` (the formatting calls do not change cell
values and catch their own errors, so they are omitted).  `clear_sheet`'s
boolean result is ignored by the caller, so a failed clear leaves the old
rows and the write still proceeds at `A1`. -/
def upload_data (env : SheetsEnv) (u : Uploader) (store : Store)
    (bucket : List Rec) (clear_first : Bool) : Bool × Uploader × Store :=
  let su := ensureService env u
  if ¬su.1 then (false, su.2, store)
  else
    let data := prepare_data_for_upload bucket
    if clear_first then
      let store1 := if env.clearOk then [] else store
      if env.writeOk then (true, su.2, overwriteAt store1 0 data)
      else (false, su.2, store1)
    else
      let next := get_next_available_row env store
      let payload := if next = 1 then data else data.tail
      if env.writeOk then (true, su.2, overwriteAt store (next - 1) payload)
      else (false, su.2, store)

/-- `SheetsUploader.upload_expert_corner_data` (with `sheet_name=None`,
so `get_first_sheet_name` is consulted first; its failure or a missing
first sheet returns `False`). -/
def upload_expert_corner_data (env : SheetsEnv) (u : Uploader) (store : Store)
    (articles : List Rec) (clear_first : Bool) : Bool × Uploader × Store :=
  let su := ensureService env u
  if ¬su.1 then (false, su.2, store)
  else if ¬env.metaOk then (false, su.2, store)
  else
    let data := get_sheet_headers :: articles.map fun a =>
      [pyGet a "date" "N/A", "Direct tax", "Article", pyGet a "title" ""]
    if clear_first then
      let store1 := if env.clearOk then [] else store
      if env.writeOk then (true, su.2, overwriteAt store1 0 data)
      else (false, su.2, store1)
    else
      let next := get_next_available_row env store
      let payload := if next = 1 then data else data.tail
      if env.writeOk then (true, su.2, overwriteAt store (next - 1) payload)
      else (false, su.2, store)

/-- `SheetsUploader.upload_litigation_tracker_data`.  Note: on the
`clear_first=True` path the later `format_litigation_summary(...,
start_row=next_row)` call raises `NameError` (`next_row` is unbound),
so that path returns `False` after writing. -/
def upload_litigation_tracker_data (env : SheetsEnv) (u : Uploader) (store : Store)
    (entries : List Rec) (clear_first : Bool) : Bool × Uploader × Store :=
  let su := ensureService env u
  if ¬su.1 then (false, su.2, store)
  else if ¬env.metaOk then (false, su.2, store)
  else
    let data := get_sheet_headers :: entries.map fun e =>
      let title := pyGet e "title" ""
      let summary_text := pyGet e "summary" ""
      let summary := if summary_text ≠ "" then title ++ "\n\n" ++ summary_text else title
      [pyGet e "date" "N/A", "Direct Tax", "Litigation", summary]
    if clear_first then
      let store1 := if env.clearOk then [] else store
      if env.writeOk then (false, su.2, overwriteAt store1 0 data)
      else (false, su.2, store1)
    else
      let next := get_next_available_row env store
      let payload := if next = 1 then data else data.tail
      if env.writeOk then (true, su.2, overwriteAt store (next - 1) payload)
      else (false, su.2, store)

/-- `SheetsUploader.prepare_taxmann_data_for_upload`. -/
def prepare_taxmann_data_for_upload (updates : List Rec) : List SRow :=
  get_sheet_headers :: updates.map fun u =>
    let title := pyGet u "Title" ""
    let content := pyGet u "Content" ""
    let url := pyGet u "URL" ""
    let source_line := "Source: Taxmann.com - " ++ url
    let summary := title ++ "\n\n" ++ content ++ "\n\n" ++ source_line
    [pyGet u "Date" "N/A", pyGet u "Category" "N/A", pyGet u "Sub-Category" "General", summary]

/-- `SheetsUploader.upload_taxmann_data`. -/
def upload_taxmann_data (env : SheetsEnv) (u : Uploader) (store : Store)
    (updates : List Rec) (clear_first : Bool) : Bool × Uploader × Store :=
  let su := ensureService env u
  if ¬su.1 then (false, su.2, store)
  else
    let data := prepare_taxmann_data_for_upload updates
    if clear_first then
      let store1 := if env.clearOk then [] else store
      if env.writeOk then (true, su.2, overwriteAt store1 0 data)
      else (false, su.2, store1)
    else
      let next := get_next_available_row env store
      let payload := if next = 1 then data else data.tail
      if env.writeOk then (true, su.2, overwriteAt store (next - 1) payload)
      else (false, su.2, store)

/-! ## The upload section of `main` -/

/-- The seven per-run buckets handed to the upload section of `main`. -/
structure AllData where
  rulings : List Rec
  expert : List Rec
  litigation : List Rec
  gst : List Rec
  direct_tax : List Rec
  company_sebi : List Rec
  fema_banking : List Rec

/-- One `if bucket: uploader.upload_xxx(bucket)` block of `main`:
attempt the upload exactly when the bucket is nonempty, record the
outcome, and carry the uploader/store state forward. -/
def attemptBucket (name : String)
    (upl : SheetsEnv → Uploader → Store → List Rec → Bool → Bool × Uploader × Store)
    (env : SheetsEnv) (bucket : List Rec)
    (st : List (String × Bool) × Uploader × Store) :
    List (String × Bool) × Uploader × Store :=
  if bucket ≠ [] then
    let r := upl env st.2.1 st.2.2 bucket false
    (st.1 ++ [(name, r.1)], r.2.1, r.2.2)
  else st

/-- The Google-Sheets upload section of `main`: seven independent
`if bucket:` blocks sharing one `SheetsUploader`; each nonempty bucket is
attempted and its boolean outcome only logged, never returned early.
Returns the attempted `(bucket name, success)` pairs in order. -/
def mainUploadSection (env : SheetsEnv) (d : AllData) (store : Store) :
    List (String × Bool) × Uploader × Store :=
  attemptBucket "taxmann_fema_banking" upload_taxmann_data env d.fema_banking
    (attemptBucket "taxmann_company_sebi" upload_taxmann_data env d.company_sebi
      (attemptBucket "taxmann_direct_tax" upload_taxmann_data env d.direct_tax
        (attemptBucket "taxmann_gst" upload_taxmann_data env d.gst
          (attemptBucket "litigation_tracker" upload_litigation_tracker_data env d.litigation
            (attemptBucket "expert_corner" upload_expert_corner_data env d.expert
              (attemptBucket "rulings" upload_data env d.rulings ([], ⟨false⟩, store)))))))

/-! ## The `is_date_in_range` arity fault (C10)

Python raises `TypeError` when a call's positional arguments do not match
the function's parameter count.  The two functions involved are modelled
with an explicit argument list and the calling convention `callPy`. -/

/-- An opaque Python value for the arity model. -/
inductive PyVal
  | str (s : String)
  | dt (t : PDate)
  | noneV
  | boolV (b : Bool)
  | listV (l : List PyVal)

/-- Python `==` on the values the model compares (dates and strings). -/
def pyEq : PyVal → PyVal → Bool
  | .str a, .str b => a == b
  | .dt a, .dt b => a == b
  | .noneV, .noneV => true
  | .boolV a, .boolV b => a == b
  | _, _ => false

/-- The single Python error class the model distinguishes. -/
inductive PyErr
  | typeError
  | otherError
deriving DecidableEq, Repr

/-- Python's positional calling convention: binding `args` against a
function of arity `arity` raises `TypeError` unless the counts agree. -/
def callPy (arity : Nat) (body : List PyVal → Except PyErr PyVal)
    (args : List PyVal) : Except PyErr PyVal :=
  if args.length = arity then body args else .error .typeError

/-- Truthiness of a `PyVal` (`if check_date:` / `if update_info["date"]:`). -/
def pyTruthy : PyVal → Bool
  | .str s => s ≠ ""
  | .dt _ => true
  | .noneV => false
  | .boolV b => b
  | .listV l => !l.isEmpty

/-- Body of `date_utils.is_date_in_range(check_date, target_dates)`
(arity 2): falsy input gives `False`, else membership of the date in the
target list. -/
def date_utils_is_date_in_range_body : List PyVal → Except PyErr PyVal
  | [check_date, targets] =>
    if ¬pyTruthy check_date then .ok (.boolV false)
    else
      match targets with
      | .listV ts => .ok (.boolV (ts.any fun t => pyEq check_date t))
      | _ => .error .otherError
  | _ => .error .typeError

/-- `date_utils.is_date_in_range` as a callable of arity 2. -/
def date_utils_is_date_in_range (args : List PyVal) : Except PyErr PyVal :=
  callPy 2 date_utils_is_date_in_range_body args

/-- Body of `BaseScraper.is_date_in_range(self, date_str, start_date,
end_date)` (arity 3 after `self`): forwards all three arguments to the
two-parameter `date_utils.is_date_in_range`. -/
def base_is_date_in_range_body : List PyVal → Except PyErr PyVal
  | args => date_utils_is_date_in_range args

/-- `BaseScraper.is_date_in_range` as a callable of arity 3. -/
def base_is_date_in_range (args : List PyVal) : Except PyErr PyVal :=
  callPy 3 base_is_date_in_range_body args

/-- A Taxmann listing item as seen by `scrape_yesterday_gst_updates`:
`extract_update_info` yields a topic, a title, a URL and an optional
parsed date. -/
structure TUpdate where
  topic : String
  title : String
  url : String
  date : Option PDate
deriving DecidableEq, Repr

/-- The per-update body of the Taxmann scrape loop, inside the `try`:
skip "Opinion" topics, then gate on
`update_info["date"] and self.is_date_in_range(update_info["date"],
target_dates)` — the two-argument call of the three-parameter wrapper. -/
def taxmannLoop (targets : List PyVal) :
    List TUpdate → List TUpdate → Except PyErr (List TUpdate)
  | [], acc => .ok acc
  | u :: rest, acc =>
    if (toLowerList u.topic.toList) = "opinion".toList then taxmannLoop targets rest acc
    else
      let dateVal : PyVal := match u.date with
        | some t => .dt t
        | none => .noneV
      if ¬pyTruthy dateVal then taxmannLoop targets rest acc
      else
        match base_is_date_in_range [dateVal, .listV targets] with
        | .error e => .error e
        | .ok v =>
          if pyTruthy v then taxmannLoop targets rest (acc ++ [u])
          else taxmannLoop targets rest acc

/-- `TaxmannGSTScraper.scrape_yesterday_gst_updates`: the whole body is
wrapped in `try: ... except Exception: return []`. -/
def scrape_yesterday_gst_updates (targets : List PyVal)
    (updates : List TUpdate) : List TUpdate :=
  match taxmannLoop targets updates [] with
  | .ok l => l
  | .error _ => []

/-! ## The supported input formats (for claim C2)

These renderers describe the claim's "valid date strings written in one of
the supported input formats": long-month, short-month-with-comma,
`DD-MM-YYYY`, `DD/MM/YYYY` and `YYYY-MM-DD`, each with or without a
leading zero on the day (and on the month for the numeric forms) and with
or without an ordinal suffix on the day.  Years are the four-digit years
these formats carry (1000–9999). -/

/-- The five supported format families of C2. -/
inductive SupportedFmt
  | dmyLong
  | mdyShort
  | dmyDash
  | dmySlash
  | ymd
deriving DecidableEq, Repr

/-- Rendering options: leading zero on the day, leading zero on the month
(numeric forms), ordinal suffix on the day. -/
structure RenderOpts where
  dayPad : Bool
  monthPad : Bool
  dayOrdinal : Bool
deriving DecidableEq, Repr

/-- A day or month number with or without its leading zero. -/
def numChars (pad : Bool) (n : Nat) : List Char :=
  if ¬pad ∧ n < 10 then [digitChar (n % 10)] else pad2Chars n

/-- The English ordinal suffix of a day number. -/
def ordSuffixChars (d : Nat) : List Char :=
  if d % 10 = 1 ∧ d % 100 ≠ 11 then ['s', 't']
  else if d % 10 = 2 ∧ d % 100 ≠ 12 then ['n', 'd']
  else if d % 10 = 3 ∧ d % 100 ≠ 13 then ['r', 'd']
  else ['t', 'h']

/-- The day field under the given options. -/
def dayChars (o : RenderOpts) (d : Nat) : List Char :=
  numChars o.dayPad d ++ (if o.dayOrdinal then ordSuffixChars d else [])

/-- Render a date in one of the supported input formats. -/
def renderSF : SupportedFmt → RenderOpts → PDate → List Char
  | .dmyLong, o, t =>
    dayChars o t.day ++ ' ' :: (fullMonthChars t.month ++ ' ' :: yearChars t.year)
  | .mdyShort, o, t =>
    abbrevMonthChars t.month ++ ' ' :: (dayChars o t.day ++ ',' :: ' ' :: yearChars t.year)
  | .dmyDash, o, t =>
    dayChars o t.day ++ '-' :: (numChars o.monthPad t.month ++ '-' :: yearChars t.year)
  | .dmySlash, o, t =>
    dayChars o t.day ++ '/' :: (numChars o.monthPad t.month ++ '/' :: yearChars t.year)
  | .ymd, o, t =>
    yearChars t.year ++ '-' :: (numChars o.monthPad t.month ++ '-' :: dayChars o t.day)

/-! ## Store lemmas -/

/-- Writing at the first free row is exactly appending. -/
theorem overwriteAt_at_length (store : Store) (rows : List SRow) :
    overwriteAt store store.length rows = store ++ rows := by
  unfold overwriteAt
  have hmax : max store.length (store.length + rows.length) = store.length + rows.length := by
    omega
  rw [hmax]
  apply List.ext_getElem
  · simp
  · intro i h1 h2
    simp only [List.getElem_map, List.getElem_range, List.getD_eq_getElem?_getD]
    simp only [List.length_map, List.length_range] at h1
    by_cases hi : i < store.length
    · have : ¬ (store.length ≤ i ∧ i < store.length + rows.length) := by omega
      rw [if_neg this, List.getElem_append_left hi, List.getElem?_eq_getElem hi]
      rfl
    · have hle : store.length ≤ i := by omega
      have hlt : i - store.length < rows.length := by
        simp only [List.length_append] at h2; omega
      rw [if_pos ⟨hle, by omega⟩, List.getElem_append_right hle,
        List.getElem?_eq_getElem hlt]
      rfl

/-- Writing into an empty sheet at row 1 yields exactly the written rows. -/
theorem overwriteAt_nil (rows : List SRow) : overwriteAt [] 0 rows = rows := by
  simpa using overwriteAt_at_length [] rows

/-- `prepare_data_for_upload` always produces the header row followed by
one row per bucket record. -/
theorem prepare_length (bucket : List Rec) :
    (prepare_data_for_upload bucket).length = bucket.length + 1 := by
  simp [prepare_data_for_upload]

/-- Shared run lemma: with `clear_first=False` and a working collaborator,
the cursor is 1 on an empty column else `count + 1`, and the whole call
reduces to success with the payload appended at the cursor (headers kept
exactly when the column was empty). -/
theorem upload_data_run (env : SheetsEnv) (store : Store) (bucket : List Rec)
    (hc : env.credsExist = true) (ha : env.authOk = true)
    (hr : env.readOk = true) (hw : env.writeOk = true) :
    get_next_available_row env store = (if store = [] then 1 else store.length + 1) ∧
    upload_data env ⟨false⟩ store bucket false =
      (true, ⟨true⟩, store ++ (if store = [] then prepare_data_for_upload bucket
        else (prepare_data_for_upload bucket).tail)) := by
  have hnext : get_next_available_row env store =
      (if store = [] then 1 else store.length + 1) := by
    simp [get_next_available_row, hr]
  refine ⟨hnext, ?_⟩
  by_cases hs : store = []
  · subst hs
    simp [upload_data, ensureService, authenticate, hc, ha, hnext, hw, overwriteAt_nil]
  · have hlen : store.length + 1 - 1 = store.length := by omega
    have hne : ¬ (store.length + 1 = 1) := by
      have := List.length_pos.mpr hs
      omega
    simp only [upload_data, ensureService, authenticate, hc, ha, hnext, hw,
      Bool.not_true, if_neg hs, if_neg hne, hlen, overwriteAt_at_length]
    simp
  -- the write is `overwriteAt store store.length _`, i.e. a single
  -- contiguous write starting at the computed row

/-! ## Claim C1 -/

/-- C1: with `clear_first=False` and a working collaborator, `upload_data`
computes the cursor as 1 on an empty key column and `count + 1` otherwise,
performs one contiguous write starting there (headers exactly when the
cursor is 1), and leaves every previously populated row unchanged. -/
theorem upload_data_preserves_rows (env : SheetsEnv) (store : Store) (bucket : List Rec)
    (hc : env.credsExist = true) (ha : env.authOk = true)
    (hr : env.readOk = true) (hw : env.writeOk = true) :
    get_next_available_row env store = (if store = [] then 1 else store.length + 1) ∧
    (upload_data env ⟨false⟩ store bucket false).1 = true ∧
    (upload_data env ⟨false⟩ store bucket false).2.2 =
      store ++ (if store = [] then prepare_data_for_upload bucket
        else (prepare_data_for_upload bucket).tail) ∧
    (∀ i, i < store.length →
      ((upload_data env ⟨false⟩ store bucket false).2.2).getD i [] = store.getD i []) := by
  obtain ⟨hnext, hrun⟩ := upload_data_run env store bucket hc ha hr hw
  refine ⟨hnext, by rw [hrun], by rw [hrun], ?_⟩
  intro i hi
  rw [hrun]
  simp only [List.getD_eq_getElem?_getD]
  rw [List.getElem?_append_left hi]

/-- Witness for C1 on a concrete store and bucket. -/
theorem upload_data_preserves_rows_witness :
    (upload_data ⟨true, true, true, true, true, true⟩ ⟨false⟩ [["Date"], ["r1"]]
        [[("Ruling Date", "Jun 07, 2025")]] false).2.2.getD 1 [] = ["r1"] := by
  have h := upload_data_preserves_rows ⟨true, true, true, true, true, true⟩
    [["Date"], ["r1"]] [[("Ruling Date", "Jun 07, 2025")]] rfl rfl rfl rfl
  have h2 := h.2.2.2 1 (by decide)
  rw [h2]
  rfl

/-! ## Claim C6 -/

/-- C6: two `clear_first=False` uploads of a non-empty `bucket` into an
initially empty store leave exactly the one header row followed by
`2 * len(bucket)` data rows; the first call writes headers plus data at
row 1, the second strips the headers and starts at row `len(bucket) + 2`. -/
theorem upload_twice_appends (env : SheetsEnv) (bucket : List Rec)
    (hc : env.credsExist = true) (ha : env.authOk = true)
    (hr : env.readOk = true) (hw : env.writeOk = true) (hb : bucket ≠ []) :
    (upload_data env ⟨false⟩ [] bucket false).2.2 = prepare_data_for_upload bucket ∧
    get_next_available_row env (upload_data env ⟨false⟩ [] bucket false).2.2 =
      bucket.length + 2 ∧
    ((upload_data env (upload_data env ⟨false⟩ [] bucket false).2.1
        (upload_data env ⟨false⟩ [] bucket false).2.2 bucket false).2.2 =
      get_sheet_headers ::
        ((prepare_data_for_upload bucket).tail ++ (prepare_data_for_upload bucket).tail)) ∧
    ((upload_data env (upload_data env ⟨false⟩ [] bucket false).2.1
        (upload_data env ⟨false⟩ [] bucket false).2.2 bucket false).2.2).length =
      1 + 2 * bucket.length := by
  have h1 := (upload_data_run env [] bucket hc ha hr hw).2
  have hs1 : (upload_data env ⟨false⟩ [] bucket false).2.2 =
      prepare_data_for_upload bucket := by
    rw [h1]; simp
  have hprep : prepare_data_for_upload bucket ≠ [] := by
    simp [prepare_data_for_upload]
  have hlen1 : (prepare_data_for_upload bucket).length = bucket.length + 1 :=
    prepare_length bucket
  have hnext2 : get_next_available_row env (upload_data env ⟨false⟩ [] bucket false).2.2 =
      bucket.length + 2 := by
    rw [hs1]
    simp [get_next_available_row, hr, hprep, hlen1]
  have hu1 : (upload_data env ⟨false⟩ [] bucket false).2.1 = ⟨true⟩ := by
    simp [upload_data, ensureService, authenticate, hc, ha, hw]
  have happ : ∀ store : Store, store ≠ [] →
      upload_data env ⟨true⟩ store bucket false =
        (true, ⟨true⟩, store ++ (prepare_data_for_upload bucket).tail) := by
    intro store hsne
    have hnext : get_next_available_row env store = store.length + 1 := by
      simp [get_next_available_row, hr, hsne]
    have hne1 : ¬ (get_next_available_row env store = 1) := by
      rw [hnext]
      have := List.length_pos.mpr hsne
      omega
    have hsub : get_next_available_row env store - 1 = store.length := by
      rw [hnext]
      omega
    simp only [upload_data, ensureService, if_pos rfl, hw, if_neg hne1, hsub,
      overwriteAt_at_length]
    simp
  have hs2 : (upload_data env (upload_data env ⟨false⟩ [] bucket false).2.1
      (upload_data env ⟨false⟩ [] bucket false).2.2 bucket false).2.2 =
      prepare_data_for_upload bucket ++ (prepare_data_for_upload bucket).tail := by
    rw [hu1, hs1, happ (prepare_data_for_upload bucket) hprep]
  have hsplit : prepare_data_for_upload bucket =
      get_sheet_headers :: (prepare_data_for_upload bucket).tail := by
    simp [prepare_data_for_upload]
  refine ⟨hs1, hnext2, ?_, ?_⟩
  · rw [hs2]
    conv_lhs => rw [hsplit]
    simp
  · rw [hs2]
    simp only [List.length_append, hlen1]
    have : (prepare_data_for_upload bucket).tail.length = bucket.length := by
      simp [prepare_data_for_upload]
    rw [this]
    omega

/-- Witness for C6 on a concrete one-record bucket. -/
theorem upload_twice_appends_witness :
    ((upload_data ⟨true, true, true, true, true, true⟩
        (upload_data ⟨true, true, true, true, true, true⟩ ⟨false⟩ []
          [[("Ruling Date", "Jun 07, 2025")]] false).2.1
        (upload_data ⟨true, true, true, true, true, true⟩ ⟨false⟩ []
          [[("Ruling Date", "Jun 07, 2025")]] false).2.2
        [[("Ruling Date", "Jun 07, 2025")]] false).2.2).length = 1 + 2 * 1 :=
  (upload_twice_appends ⟨true, true, true, true, true, true⟩
    [[("Ruling Date", "Jun 07, 2025")]] rfl rfl rfl rfl (by decide)).2.2.2

/-! ## Claim C7 -/

/-- C7: on a missing credential file, an authentication error, or a
transport error during the write, `upload_data` returns `False` (it is a
total function of the fault flags — no exception escapes the boundary);
and the upload section of `main` attempts exactly the nonempty buckets,
in order, irrespective of the fault flags and of the store, so no
bucket's failure prevents another bucket's attempt. -/
theorem upload_failures_are_local :
    (∀ (env : SheetsEnv) (store : Store) (bucket : List Rec) (c : Bool),
      env.credsExist = false ∨ env.authOk = false →
      (upload_data env ⟨false⟩ store bucket c).1 = false) ∧
    (∀ (env : SheetsEnv) (u : Uploader) (store : Store) (bucket : List Rec),
      env.writeOk = false →
      (upload_data env u store bucket false).1 = false) ∧
    (∀ (env env2 : SheetsEnv) (d : AllData) (store store2 : Store),
      ((mainUploadSection env d store).1.map Prod.fst) =
        ((mainUploadSection env2 d store2).1.map Prod.fst)) := by
  refine ⟨?_, ?_, ?_⟩
  · intro env store bucket c h
    rcases h with h | h <;>
      simp [upload_data, ensureService, authenticate, h]
  · intro env u store bucket h
    by_cases hsv : (ensureService env u).1
    · simp only [upload_data, h]
      split
      · rfl
      · simp
    · simp [upload_data, hsv]
  · intro env env2 d store store2
    have hstep : ∀ (name : String) upl (env3 : SheetsEnv) (bucket : List Rec)
        (st : List (String × Bool) × Uploader × Store),
        (attemptBucket name upl env3 bucket st).1.map Prod.fst =
          st.1.map Prod.fst ++ (if bucket ≠ [] then [name] else []) := by
      intro name upl env3 bucket st
      unfold attemptBucket
      split <;> simp
    simp only [mainUploadSection, hstep]

/-- Witness for C7: a missing-credentials environment fails a concrete
upload, yet both Taxmann buckets of a two-bucket run are still attempted. -/
theorem upload_failures_are_local_witness :
    (upload_data ⟨false, true, true, true, true, true⟩ ⟨false⟩ []
      [[("Ruling Date", "Jun 07, 2025")]] false).1 = false ∧
    ((mainUploadSection ⟨false, true, true, true, true, true⟩
        ⟨[], [], [], [[("Title", "g")]], [[("Title", "d")]], [], []⟩ []).1.map Prod.fst) =
      ((mainUploadSection ⟨true, true, true, true, true, true⟩
        ⟨[], [], [], [[("Title", "g")]], [[("Title", "d")]], [], []⟩ [["x"]]).1.map Prod.fst) :=
  ⟨upload_failures_are_local.1 ⟨false, true, true, true, true, true⟩ []
      [[("Ruling Date", "Jun 07, 2025")]] false (Or.inl rfl),
    upload_failures_are_local.2.2 ⟨false, true, true, true, true, true⟩
      ⟨true, true, true, true, true, true⟩
      ⟨[], [], [], [[("Title", "g")]], [[("Title", "d")]], [], []⟩ [] [["x"]]⟩

/-! ## Claim C8 -/

/-- C8 counterexample: for input `"N/A"` with target list `["N/A"]` the
whitespace-collapsed input literally equals a whitespace-collapsed target,
yet `is_target_date` returns `False` — the claimed if-and-only-if fails,
because the `""`/`"N/A"` guard precedes the comparison. -/
theorem is_target_date_iff_fails_on_na :
    ¬ (is_target_date "N/A" ["N/A"] = true ↔
        ∃ t ∈ ["N/A"], wsCollapse (pyStrip "N/A".toList) = wsCollapse t.toList) := by
  decide

/-- C8 (amended): `is_target_date` returns `True` iff the input is neither
empty nor `"N/A"` and its whitespace-collapsed form literally equals the
whitespace-collapsed form of some target (no date normalisation); in
particular it returns `False` on `""` and `"N/A"` for every target list,
and it is a total function. -/
theorem is_target_date_spec (s : String) (targets : List String) :
    (is_target_date s targets = true ↔
      (s ≠ "" ∧ s ≠ "N/A" ∧
        ∃ t ∈ targets, wsCollapse (pyStrip s.toList) = wsCollapse t.toList)) ∧
    is_target_date "" targets = false ∧ is_target_date "N/A" targets = false := by
  refine ⟨?_, by rfl, by rfl⟩
  unfold is_target_date
  by_cases h : s = "" ∨ s = "N/A"
  · rw [if_pos h]
    simp only [Bool.false_eq_true, false_iff]
    rintro ⟨h1, h2, -⟩
    rcases h with h | h <;> [exact h1 h; exact h2 h]
  · rw [if_neg h]
    push_neg at h
    simp [List.any_eq_true, h.1, h.2]

/-! ## Claim C10 -/

/-- Under any fault flags, any record that reaches the date check makes
the Taxmann loop raise `TypeError` out of the loop. -/
theorem taxmannLoop_typeError (targets : List PyVal) :
    ∀ (l : List TUpdate) (acc : List TUpdate),
      (∃ u ∈ l, (toLowerList u.topic.toList) ≠ "opinion".toList ∧ u.date.isSome) →
      taxmannLoop targets l acc = .error .typeError := by
  intro l
  induction l with
  | nil => intro acc h; simp at h
  | cons u rest ih =>
    intro acc h
    by_cases hop : (toLowerList u.topic.toList) = "opinion".toList
    · have hrest : ∃ v ∈ rest,
          (toLowerList v.topic.toList) ≠ "opinion".toList ∧ v.date.isSome := by
        rcases h with ⟨v, hv, hv2⟩
        rcases List.mem_cons.mp hv with rfl | hv
        · exact absurd hop hv2.1
        · exact ⟨v, hv, hv2⟩
      simp only [taxmannLoop, if_pos hop]
      exact ih acc hrest
    · cases hd : u.date with
      | some t =>
        simp only [taxmannLoop, hd]
        rw [if_neg hop]
        rfl
      | none =>
        have hrest : ∃ v ∈ rest,
            (toLowerList v.topic.toList) ≠ "opinion".toList ∧ v.date.isSome := by
          rcases h with ⟨v, hv, hv2⟩
          rcases List.mem_cons.mp hv with rfl | hv
          · rw [hd] at hv2; simp at hv2
          · exact ⟨v, hv, hv2⟩
        simp only [taxmannLoop, if_neg hop, hd]
        exact ih acc hrest

/-- C10: every call of the `BaseScraper.is_date_in_range` wrapper raises
`TypeError` — a two-argument call (as made by the Taxmann scrapers) fails
arity binding, and a three-argument call forwards three arguments to the
two-parameter `date_utils.is_date_in_range`; consequently any Taxmann
scrape in which some record reaches the date filter is converted to `[]`
by the enclosing exception handler. -/
theorem is_date_in_range_always_type_errors :
    (∀ args : List PyVal, base_is_date_in_range args = .error .typeError) ∧
    (∀ (targets : List PyVal) (updates : List TUpdate),
      (∃ u ∈ updates, (toLowerList u.topic.toList) ≠ "opinion".toList ∧ u.date.isSome) →
      scrape_yesterday_gst_updates targets updates = []) := by
  constructor
  · intro args
    unfold base_is_date_in_range callPy
    by_cases h : args.length = 3
    · rw [if_pos h]
      unfold base_is_date_in_range_body date_utils_is_date_in_range callPy
      rw [if_neg (by omega)]
    · rw [if_neg h]
  · intro targets updates h
    unfold scrape_yesterday_gst_updates
    rw [taxmannLoop_typeError targets updates [] h]

/-- Witness for C10: a concrete GST record with a parsed date makes the
whole scrape return the empty list. -/
theorem is_date_in_range_always_type_errors_witness :
    scrape_yesterday_gst_updates [.str "Jun 09, 2025"]
      [⟨"GST", "t", "u", some ⟨2025, 6, 9⟩⟩] = [] :=
  is_date_in_range_always_type_errors.2 [.str "Jun 09, 2025"]
    [⟨"GST", "t", "u", some ⟨2025, 6, 9⟩⟩]
    ⟨⟨"GST", "t", "u", some ⟨2025, 6, 9⟩⟩, by decide, by decide, rfl⟩

/-! ## Claims C4 and C5 (the rulings collection loop) -/

/-- C4: on a stream starting `[today, target, target, older, …]`, the loop
skips the today record without terminating, accepts the two target
records, and returns them at the first subsequent record that neither
matches a target nor is today — whatever follows is never examined. -/
theorem rulings_loop_window (targets : List String) (today : PDate)
    (r0 r1 r2 r3 : RInfo) (rest : List RInfo)
    (h0t : is_target_date r0.published_date targets = false)
    (h0d : is_today_date today r0.published_date = true)
    (h1t : is_target_date r1.published_date targets = true)
    (h2t : is_target_date r2.published_date targets = true)
    (h3t : is_target_date r3.published_date targets = false)
    (h3d : is_today_date today r3.published_date = false) :
    scrape_yesterday_rulings targets today (r0 :: r1 :: r2 :: r3 :: rest) = [r1, r2] := by
  unfold scrape_yesterday_rulings
  simp [rulingsLoop, h0t, h0d, h1t, h2t, h3t, h3d]

/-- Witness for C4: the spec's concrete Monday scenario (reference date
2025-06-09; weekend targets Jun 07 / Jun 08; an older Friday record and a
second older record behind it). -/
theorem rulings_loop_window_witness :
    scrape_yesterday_rulings ["Jun 07, 2025", "Jun 08, 2025"] ⟨2025, 6, 9⟩
      [⟨"u0", "t0", "Jun 09, 2025"⟩, ⟨"u1", "t1", "Jun 07, 2025"⟩,
        ⟨"u2", "t2", "Jun 08, 2025"⟩, ⟨"u3", "t3", "Jun 06, 2025"⟩,
        ⟨"u4", "t4", "Jun 06, 2025"⟩] =
      [⟨"u1", "t1", "Jun 07, 2025"⟩, ⟨"u2", "t2", "Jun 08, 2025"⟩] :=
  rulings_loop_window ["Jun 07, 2025", "Jun 08, 2025"] ⟨2025, 6, 9⟩
    ⟨"u0", "t0", "Jun 09, 2025"⟩ ⟨"u1", "t1", "Jun 07, 2025"⟩
    ⟨"u2", "t2", "Jun 08, 2025"⟩ ⟨"u3", "t3", "Jun 06, 2025"⟩
    [⟨"u4", "t4", "Jun 06, 2025"⟩]
    (by decide) (by decide) (by decide) (by decide) (by decide) (by decide)

/-- C5 counterexample: after one accepted target record, a record dated
*later* than every target (2025-06-15 vs target 2025-06-07 — not older
than the window) terminates the scan, and a further target record behind
it is discarded; so termination is not restricted to older-than-window
records. -/
theorem rulings_loop_terminates_on_future_record :
    scrape_yesterday_rulings ["Jun 07, 2025"] ⟨2025, 6, 9⟩
      [⟨"u1", "t1", "Jun 07, 2025"⟩, ⟨"u2", "t2", "Jun 15, 2025"⟩,
        ⟨"u3", "t3", "Jun 07, 2025"⟩] = [⟨"u1", "t1", "Jun 07, 2025"⟩] ∧
    toOrdinal ⟨2025, 6, 7⟩ < toOrdinal ⟨2025, 6, 15⟩ ∧
    is_target_date "Jun 07, 2025" ["Jun 07, 2025"] = true := by
  refine ⟨?_, by decide, by decide⟩
  decide

/-- C5 (amended): once a record has been accepted (`found = True`), the
loop returns its accumulated records at the *first* record that neither
matches a target date nor is today's date — regardless of whether that
record is older than the window (future-dated or pinned items also
terminate); while nothing has been accepted, such a record is skipped
and scanning continues. -/
theorem rulings_loop_termination_condition (targets : List String) (today : PDate)
    (r : RInfo) (rest : List RInfo) (acc : List RInfo)
    (ht : is_target_date r.published_date targets = false)
    (hd : is_today_date today r.published_date = false) :
    rulingsLoop targets today (r :: rest) acc true = acc ∧
    rulingsLoop targets today (r :: rest) acc false =
      rulingsLoop targets today rest acc false := by
  constructor <;> simp [rulingsLoop, ht, hd]

/-- Witness for the amended C5 on concrete records. -/
theorem rulings_loop_termination_condition_witness :
    rulingsLoop ["Jun 07, 2025"] ⟨2025, 6, 9⟩
      [⟨"u2", "t2", "Jun 15, 2025"⟩, ⟨"u3", "t3", "Jun 07, 2025"⟩]
      [⟨"u1", "t1", "Jun 07, 2025"⟩] true = [⟨"u1", "t1", "Jun 07, 2025"⟩] :=
  (rulings_loop_termination_condition ["Jun 07, 2025"] ⟨2025, 6, 9⟩
    ⟨"u2", "t2", "Jun 15, 2025"⟩ [⟨"u3", "t3", "Jun 07, 2025"⟩]
    [⟨"u1", "t1", "Jun 07, 2025"⟩] (by decide) (by decide)).1

/-! ## Claim C3 (target-date resolution) -/

/-- Every month has at least one day. -/
theorem daysInMonth_pos (y m : Nat) : 1 ≤ daysInMonth y m := by
  unfold daysInMonth
  split
  · split <;> norm_num
  · split <;> norm_num

/-- The ordinal of the previous calendar day is one less.  The hypotheses
are the field constraints that `predDay`'s arithmetic needs (implied by
validity, and preserved by `predDay` itself). -/
theorem toOrdinal_pred (t : PDate) (h1 : 1 ≤ t.month) (h2 : t.month ≤ 12)
    (h3 : 1 ≤ t.day) (h4 : t.day ≤ daysInMonth t.year t.month)
    (h5 : t.month = 1 → t.day = 1 → 1 ≤ t.year) :
    toOrdinal (predDay t) = toOrdinal t - 1 := by
  obtain ⟨y, m, d⟩ := t
  simp only at h1 h2 h3 h4 h5
  unfold predDay
  by_cases hdd : 1 < d
  · rw [if_pos hdd]
    simp only [toOrdinal]
    by_cases hm : m ≤ 2
    · simp only [if_pos hm]; omega
    · simp only [if_neg hm]; omega
  · rw [if_neg hdd]
    have hd : d = 1 := by omega
    subst hd
    by_cases hmm : 1 < m
    · rw [if_pos hmm]
      have hm2 : 2 ≤ m := hmm
      have hleap : isLeapYear y = true ↔ ((y % 4 = 0 ∧ ¬ y % 100 = 0) ∨ y % 400 = 0) := by
        simp [isLeapYear, Bool.or_eq_true, Bool.and_eq_true, beq_iff_eq, bne_iff_ne]
      interval_cases m
      · simp only [toOrdinal, daysInMonth]; norm_num; omega
      · -- m = 3: the predecessor is the last day of February
        cases hl : isLeapYear y with
        | true =>
          have hl2 := hleap.mp hl
          simp only [toOrdinal, daysInMonth, hl]
          norm_num
          omega
        | false =>
          have hl2 : ¬ ((y % 4 = 0 ∧ ¬ y % 100 = 0) ∨ y % 400 = 0) := by
            intro hcon
            rw [← hleap] at hcon
            rw [hl] at hcon
            exact Bool.false_ne_true hcon
          simp only [toOrdinal, daysInMonth, hl]
          norm_num
          omega
      all_goals (simp only [toOrdinal, daysInMonth]; norm_num; omega)
    · rw [if_neg hmm]
      have hm : m = 1 := by omega
      subst hm
      simp only [toOrdinal]
      norm_num
      omega

/-- `predDay` of a valid date keeps the field constraints that
`toOrdinal_pred` needs. -/
theorem predDay_fields (t : PDate) (h : t.valid) :
    1 ≤ (predDay t).month ∧ (predDay t).month ≤ 12 ∧ 1 ≤ (predDay t).day ∧
    (predDay t).day ≤ daysInMonth (predDay t).year (predDay t).month ∧
    ((predDay t).month = 1 → (predDay t).day = 1 → 1 ≤ (predDay t).year) := by
  obtain ⟨hy1, hy2, hm1, hm2, hd1, hd2⟩ := h
  obtain ⟨y, m, d⟩ := t
  simp only at *
  unfold predDay
  by_cases hdd : 1 < d
  · rw [if_pos hdd]
    simp only
    refine ⟨hm1, hm2, by omega, by omega, fun _ _ => hy1⟩
  · rw [if_neg hdd]
    by_cases hmm : 1 < m
    · rw [if_pos hmm]
      simp only
      refine ⟨by omega, by omega, daysInMonth_pos y (m - 1), le_refl _, ?_⟩
      intro hm1' hd1'
      exfalso
      rw [hm1'] at hd1'
      norm_num [daysInMonth] at hd1'
    · rw [if_neg hmm]
      simp only
      norm_num [daysInMonth]

/-- C3: for every valid reference date, `get_target_dates` returns the
empty list on Saturday/Sunday; on Monday it returns exactly the two
short-form entries for the preceding Saturday (`today - 2`, whose weekday
is indeed 5) then the preceding Sunday (`today - 1`, weekday 6); on
Tuesday–Friday it returns exactly one entry, yesterday's short-form date. -/
theorem get_target_dates_cases (today : PDate) (h : today.valid) :
    (pyWeekday today = 5 ∨ pyWeekday today = 6 → get_target_dates today = []) ∧
    (pyWeekday today = 0 →
      get_target_dates today =
        [⟨renderShortChars (predDay (predDay today))⟩, ⟨renderShortChars (predDay today)⟩] ∧
      pyWeekday (predDay (predDay today)) = 5 ∧ pyWeekday (predDay today) = 6) ∧
    (pyWeekday today = 1 ∨ pyWeekday today = 2 ∨ pyWeekday today = 3 ∨ pyWeekday today = 4 →
      get_target_dates today = [get_yesterday_string today] ∧
      get_yesterday_string today = ⟨renderShortChars (predDay today)⟩) := by
  have hv := h
  obtain ⟨hy1, hy2, hm1, hm2, hd1, hd2⟩ := hv
  have o1 : toOrdinal (predDay today) = toOrdinal today - 1 :=
    toOrdinal_pred today hm1 hm2 hd1 hd2 (fun _ _ => hy1)
  have hf := predDay_fields today h
  have o2 : toOrdinal (predDay (predDay today)) = toOrdinal today - 2 := by
    rw [toOrdinal_pred (predDay today) hf.1 hf.2.1 hf.2.2.1 hf.2.2.2.1 hf.2.2.2.2, o1]
    omega
  refine ⟨?_, ?_, ?_⟩
  · intro h56
    unfold get_target_dates
    rw [if_pos h56]
  · intro h0
    have hne : ¬ (pyWeekday today = 5 ∨ pyWeekday today = 6) := by omega
    refine ⟨?_, ?_, ?_⟩
    · unfold get_target_dates get_weekend_dates
      rw [if_neg hne, if_pos h0, if_pos h0]
    · unfold pyWeekday at h0 ⊢
      rw [o2]
      omega
    · unfold pyWeekday at h0 ⊢
      rw [o1]
      omega
  · intro h1234
    have hne : ¬ (pyWeekday today = 5 ∨ pyWeekday today = 6) := by omega
    have hne0 : ¬ pyWeekday today = 0 := by omega
    unfold get_target_dates
    rw [if_neg hne, if_neg hne0]
    exact ⟨rfl, rfl⟩

/-- Witness for C3 at the concrete Monday 2025-06-09. -/
theorem get_target_dates_cases_witness :
    get_target_dates ⟨2025, 6, 9⟩ =
      [⟨renderShortChars (predDay (predDay ⟨2025, 6, 9⟩))⟩,
        ⟨renderShortChars (predDay ⟨2025, 6, 9⟩)⟩] ∧
    pyWeekday (predDay (predDay ⟨2025, 6, 9⟩)) = 5 ∧
    pyWeekday (predDay ⟨2025, 6, 9⟩) = 6 :=
  (get_target_dates_cases ⟨2025, 6, 9⟩ (by decide)).2.1 (by decide)


theorem digitChar_isDigit (k : Nat) : (digitChar k).isDigit = true := by
  rcases k with _|_|_|_|_|_|_|_|_|k <;> rfl

theorem digitChar_not_ws (k : Nat) : (digitChar k).isWhitespace = false := by
  rcases k with _|_|_|_|_|_|_|_|_|k <;> rfl

theorem digitVal_digitChar (k : Nat) (h : k < 10) : digitVal (digitChar k) = k := by
  interval_cases k <;> rfl

theorem numChars_digits (p : Bool) (n : Nat) : ∀ c ∈ numChars p n, c.isDigit = true := by
  unfold numChars pad2Chars
  split <;> simp [digitChar_isDigit]

theorem numChars_ne_nil (p : Bool) (n : Nat) : numChars p n ≠ [] := by
  unfold numChars pad2Chars
  split <;> simp

theorem isOrdSuffix_false_of_head (a : Char)
    (h1 : a ≠ 's') (h2 : a ≠ 'n') (h3 : a ≠ 'r') (h4 : a ≠ 't') (x : Char) :
    isOrdSuffix a x = false := by
  simp [isOrdSuffix, h1, h2, h3, h4]

theorem goStrip_cons (prevD : Bool) (a : Char) (rest : List Char) :
    goStrip prevD (a :: rest) =
      if a.isDigit then a :: goStrip true rest
      else if prevD then
        match rest with
        | b :: r => if isOrdSuffix a b then goStrip false r else a :: goStrip false (b :: r)
        | [] => [a]
      else a :: goStrip false rest := by
  cases rest <;> rfl

theorem goStrip_nondigit_seg (xs : List Char) (hxs : ∀ c ∈ xs, c.isDigit = false)
    (rest : List Char) : goStrip false (xs ++ rest) = xs ++ goStrip false rest := by
  induction xs with
  | nil => rfl
  | cons a l ih =>
    have ha := hxs a (List.mem_cons_self a l)
    have hl : ∀ c ∈ l, c.isDigit = false := fun c hc => hxs c (List.mem_cons_of_mem a hc)
    simp [goStrip_cons, ha, ih hl]

theorem goStrip_digit_seg (ds : List Char) (hds : ∀ c ∈ ds, c.isDigit = true)
    (hne : ds ≠ []) (b : Bool) (rest : List Char) :
    goStrip b (ds ++ rest) = ds ++ goStrip true rest := by
  induction ds generalizing b with
  | nil => exact absurd rfl hne
  | cons a l ih =>
    have ha := hds a (List.mem_cons_self a l)
    have hl : ∀ c ∈ l, c.isDigit = true := fun c hc => hds c (List.mem_cons_of_mem a hc)
    cases l with
    | nil => simp [goStrip_cons, ha]
    | cons x xs =>
      have := ih hl (by simp) true
      simp only [List.cons_append] at this ⊢
      simp [goStrip_cons, ha, this]

theorem goStrip_true_junction (c : Char) (hc : c.isDigit = false)
    (hsuf : ∀ x, isOrdSuffix c x = false) (rest : List Char) :
    goStrip true (c :: rest) = c :: goStrip false rest := by
  cases rest with
  | nil => simp [goStrip_cons, goStrip, hc]
  | cons b r => simp [goStrip_cons, hc, hsuf b]

theorem goStrip_false_junction (c : Char) (hc : c.isDigit = false) (rest : List Char) :
    goStrip false (c :: rest) = c :: goStrip false rest := by
  simp [goStrip_cons, hc]

theorem goStrip_true_suffix (s1 s2 : Char) (h : isOrdSuffix s1 s2 = true)
    (hs1 : s1.isDigit = false) (rest : List Char) :
    goStrip true (s1 :: s2 :: rest) = goStrip false rest := by
  simp [goStrip_cons, hs1, h]

theorem ordSuffix_shape (d : Nat) :
    ∃ s1 s2, ordSuffixChars d = [s1, s2] ∧ isOrdSuffix s1 s2 = true ∧
      s1.isDigit = false := by
  unfold ordSuffixChars
  split_ifs <;> first
    | exact ⟨'s', 't', rfl, by decide, by decide⟩
    | exact ⟨'n', 'd', rfl, by decide, by decide⟩
    | exact ⟨'r', 'd', rfl, by decide, by decide⟩
    | exact ⟨'t', 'h', rfl, by decide, by decide⟩

theorem goStrip_day_chunk (o : RenderOpts) (d : Nat) (c : Char) (rest : List Char)
    (hc : c.isDigit = false) (hcs : ∀ x, isOrdSuffix c x = false) :
    goStrip false (dayChars o d ++ c :: rest) =
      numChars o.dayPad d ++ c :: goStrip false rest := by
  unfold dayChars
  by_cases ho : o.dayOrdinal
  · obtain ⟨s1, s2, hsh, hsuf, hs1⟩ := ordSuffix_shape d
    rw [if_pos ho, hsh, List.append_assoc,
      goStrip_digit_seg _ (numChars_digits _ _) (numChars_ne_nil _ _)]
    simp only [List.cons_append, List.nil_append]
    rw [goStrip_true_suffix s1 s2 hsuf hs1, goStrip_false_junction c hc]
  · rw [if_neg ho, List.append_nil,
      goStrip_digit_seg _ (numChars_digits _ _) (numChars_ne_nil _ _),
      goStrip_true_junction c hc hcs]

theorem goStrip_day_end (o : RenderOpts) (d : Nat) :
    goStrip false (dayChars o d) = numChars o.dayPad d := by
  unfold dayChars
  by_cases ho : o.dayOrdinal
  · obtain ⟨s1, s2, hsh, hsuf, hs1⟩ := ordSuffix_shape d
    rw [if_pos ho, hsh,
      goStrip_digit_seg _ (numChars_digits _ _) (numChars_ne_nil _ _),
      goStrip_true_suffix s1 s2 hsuf hs1]
    simp [goStrip]
  · rw [if_neg ho, List.append_nil, ← List.append_nil (numChars o.dayPad d)]
    rw [goStrip_digit_seg _ (numChars_digits _ _) (numChars_ne_nil _ _)]
    simp [goStrip]

theorem goStrip_num_chunk (p : Bool) (n : Nat) (c : Char) (rest : List Char)
    (hc : c.isDigit = false) (hcs : ∀ x, isOrdSuffix c x = false) :
    goStrip false (numChars p n ++ c :: rest) =
      numChars p n ++ c :: goStrip false rest := by
  rw [goStrip_digit_seg _ (numChars_digits _ _) (numChars_ne_nil _ _),
    goStrip_true_junction c hc hcs]

theorem goStrip_year_end (y : Nat) : goStrip false (yearChars y) = yearChars y := by
  rw [← List.append_nil (yearChars y),
    goStrip_digit_seg _ (by simp [yearChars, digitChar_isDigit]) (by simp [yearChars])]
  simp [goStrip]

theorem goStrip_year_chunk (y : Nat) (c : Char) (rest : List Char)
    (hc : c.isDigit = false) (hcs : ∀ x, isOrdSuffix c x = false) :
    goStrip false (yearChars y ++ c :: rest) = yearChars y ++ c :: goStrip false rest := by
  rw [goStrip_digit_seg _ (by simp [yearChars, digitChar_isDigit]) (by simp [yearChars]),
    goStrip_true_junction c hc hcs]


theorem fullMonth_nondigit (m : Nat) (h1 : 1 ≤ m) (h2 : m ≤ 12) :
    ∀ c ∈ fullMonthChars m, c.isDigit = false := by
  interval_cases m <;> decide

theorem abbrevMonth_nondigit (m : Nat) (h1 : 1 ≤ m) (h2 : m ≤ 12) :
    ∀ c ∈ abbrevMonthChars m, c.isDigit = false := by
  interval_cases m <;> decide

theorem noSuffix_sp : ∀ x, isOrdSuffix ' ' x = false :=
  isOrdSuffix_false_of_head ' ' (by decide) (by decide) (by decide) (by decide)

theorem noSuffix_comma : ∀ x, isOrdSuffix ',' x = false :=
  isOrdSuffix_false_of_head ',' (by decide) (by decide) (by decide) (by decide)

theorem noSuffix_dash : ∀ x, isOrdSuffix '-' x = false :=
  isOrdSuffix_false_of_head '-' (by decide) (by decide) (by decide) (by decide)

theorem noSuffix_slash : ∀ x, isOrdSuffix '/' x = false :=
  isOrdSuffix_false_of_head '/' (by decide) (by decide) (by decide) (by decide)

theorem dayChars_noord (p mp : Bool) (d : Nat) :
    dayChars ⟨p, mp, false⟩ d = numChars p d := by
  simp [dayChars]

theorem strip_renderSF (f : SupportedFmt) (o : RenderOpts) (t : PDate)
    (hm1 : 1 ≤ t.month) (hm2 : t.month ≤ 12) :
    stripOrdinals (renderSF f o t) =
      renderSF f ⟨o.dayPad, o.monthPad, false⟩ t := by
  obtain ⟨y, m, d⟩ := t
  simp only at hm1 hm2
  unfold stripOrdinals
  cases f with
  | dmyLong =>
    show goStrip false (dayChars o d ++ ' ' :: (fullMonthChars m ++ ' ' :: yearChars y)) = _
    rw [goStrip_day_chunk o d ' ' _ (by decide) noSuffix_sp,
      goStrip_nondigit_seg _ (fullMonth_nondigit m hm1 hm2),
      goStrip_false_junction ' ' (by decide), goStrip_year_end]
    simp [renderSF, dayChars_noord]
  | mdyShort =>
    show goStrip false
        (abbrevMonthChars m ++ ' ' :: (dayChars o d ++ ',' :: ' ' :: yearChars y)) = _
    rw [goStrip_nondigit_seg _ (abbrevMonth_nondigit m hm1 hm2),
      goStrip_false_junction ' ' (by decide),
      goStrip_day_chunk o d ',' _ (by decide) noSuffix_comma,
      goStrip_false_junction ' ' (by decide), goStrip_year_end]
    simp [renderSF, dayChars_noord]
  | dmyDash =>
    show goStrip false (dayChars o d ++ '-' :: (numChars o.monthPad m ++ '-' :: yearChars y)) = _
    rw [goStrip_day_chunk o d '-' _ (by decide) noSuffix_dash,
      goStrip_num_chunk o.monthPad m '-' _ (by decide) noSuffix_dash, goStrip_year_end]
    simp [renderSF, dayChars_noord]
  | dmySlash =>
    show goStrip false (dayChars o d ++ '/' :: (numChars o.monthPad m ++ '/' :: yearChars y)) = _
    rw [goStrip_day_chunk o d '/' _ (by decide) noSuffix_slash,
      goStrip_num_chunk o.monthPad m '/' _ (by decide) noSuffix_slash, goStrip_year_end]
    simp [renderSF, dayChars_noord]
  | ymd =>
    show goStrip false (yearChars y ++ '-' :: (numChars o.monthPad m ++ '-' :: dayChars o d)) = _
    rw [goStrip_year_chunk y '-' _ (by decide) noSuffix_dash,
      goStrip_num_chunk o.monthPad m '-' _ (by decide) noSuffix_dash, goStrip_day_end]
    simp [renderSF, dayChars_noord]


theorem dropTrailWs_cons (a : Char) (l : List Char) :
    dropTrailWs (a :: l) =
      (if dropTrailWs l = [] ∧ a.isWhitespace then [] else a :: dropTrailWs l) := by
  rfl

theorem dropTrailWs_append_of_ne (xs ys : List Char) (h : dropTrailWs ys ≠ []) :
    dropTrailWs (xs ++ ys) = xs ++ dropTrailWs ys := by
  induction xs with
  | nil => rfl
  | cons a l ih =>
    have hl : dropTrailWs (l ++ ys) ≠ [] := by
      rw [ih]
      intro hcon
      exact h (List.append_eq_nil.mp hcon).2
    rw [List.cons_append, dropTrailWs_cons, if_neg (fun hcon => hl hcon.1), ih]
    rfl

theorem dropTrailWs_concat (xs : List Char) (c : Char) (hc : c.isWhitespace = false) :
    dropTrailWs (xs ++ [c]) = xs ++ [c] := by
  rw [dropTrailWs_append_of_ne]
  · simp [dropTrailWs, hc]
  · simp [dropTrailWs, hc]

theorem yearChars_concat (y : Nat) :
    yearChars y = [digitChar (y / 1000 % 10), digitChar (y / 100 % 10),
      digitChar (y / 10 % 10)] ++ [digitChar (y % 10)] := rfl

theorem dayChars_last (o : RenderOpts) (d : Nat) :
    ∃ xs ch, dayChars o d = xs ++ [ch] ∧ ch.isWhitespace = false := by
  unfold dayChars
  by_cases ho : o.dayOrdinal
  · rw [if_pos ho]
    unfold ordSuffixChars
    split_ifs
    · exact ⟨numChars o.dayPad d ++ ['s'], 't', by simp, by decide⟩
    · exact ⟨numChars o.dayPad d ++ ['n'], 'd', by simp, by decide⟩
    · exact ⟨numChars o.dayPad d ++ ['r'], 'd', by simp, by decide⟩
    · exact ⟨numChars o.dayPad d ++ ['t'], 'h', by simp, by decide⟩
  · rw [if_neg ho, List.append_nil]
    unfold numChars pad2Chars
    split_ifs
    · exact ⟨[], digitChar (d % 10), rfl, digitChar_not_ws _⟩
    · exact ⟨[digitChar (d / 10 % 10)], digitChar (d % 10), rfl, digitChar_not_ws _⟩

theorem numChars_head (p : Bool) (n : Nat) :
    ∃ ch cs, numChars p n = ch :: cs ∧ ch.isWhitespace = false := by
  unfold numChars pad2Chars
  split_ifs
  · exact ⟨_, _, rfl, digitChar_not_ws _⟩
  · exact ⟨_, _, rfl, digitChar_not_ws _⟩

theorem dayChars_head (o : RenderOpts) (d : Nat) :
    ∃ ch cs, dayChars o d = ch :: cs ∧ ch.isWhitespace = false := by
  obtain ⟨ch, cs, hsh, hws⟩ := numChars_head o.dayPad d
  exact ⟨ch, cs ++ (if o.dayOrdinal then ordSuffixChars d else []),
    by rw [dayChars, hsh]; simp, hws⟩

theorem dropWhile_ws_cons (c : Char) (cs : List Char) (hc : c.isWhitespace = false) :
    (c :: cs).dropWhile Char.isWhitespace = c :: cs := by
  simp [List.dropWhile_cons, hc]

theorem abbrevMonth_head (m : Nat) (h1 : 1 ≤ m) (h2 : m ≤ 12) :
    ∃ ch cs, abbrevMonthChars m = ch :: cs ∧ ch.isWhitespace = false := by
  interval_cases m <;> exact ⟨_, _, rfl, by decide⟩

theorem pyStrip_renderSF (f : SupportedFmt) (o : RenderOpts) (t : PDate)
    (hm1 : 1 ≤ t.month) (hm2 : t.month ≤ 12) :
    pyStrip (renderSF f o t) = renderSF f o t := by
  obtain ⟨y, m, d⟩ := t
  simp only at hm1 hm2
  have htail : dropTrailWs (renderSF f o ⟨y, m, d⟩) = renderSF f o ⟨y, m, d⟩ := by
    cases f with
    | ymd =>
      obtain ⟨xs, ch, hsh, hws⟩ := dayChars_last o d
      show dropTrailWs (yearChars y ++ '-' :: (numChars o.monthPad m ++ '-' :: dayChars o d)) = _
      rw [hsh]
      have hre : yearChars y ++ '-' :: (numChars o.monthPad m ++ '-' :: (xs ++ [ch])) =
          (yearChars y ++ '-' :: (numChars o.monthPad m ++ '-' :: xs)) ++ [ch] := by
        simp
      rw [hre, dropTrailWs_concat _ _ hws, ← hre, ← hsh]
      rfl
    | dmyLong =>
      show dropTrailWs (dayChars o d ++ ' ' :: (fullMonthChars m ++ ' ' :: yearChars y)) = _
      rw [yearChars_concat]
      have hre : dayChars o d ++ ' ' :: (fullMonthChars m ++ ' ' ::
          ([digitChar (y / 1000 % 10), digitChar (y / 100 % 10), digitChar (y / 10 % 10)] ++
            [digitChar (y % 10)])) =
          (dayChars o d ++ ' ' :: (fullMonthChars m ++ ' ' ::
            [digitChar (y / 1000 % 10), digitChar (y / 100 % 10), digitChar (y / 10 % 10)])) ++
            [digitChar (y % 10)] := by
        simp
      rw [hre, dropTrailWs_concat _ _ (digitChar_not_ws _), ← hre]
      rfl
    | mdyShort =>
      show dropTrailWs (abbrevMonthChars m ++ ' ' :: (dayChars o d ++ ',' :: ' ' :: yearChars y)) = _
      rw [yearChars_concat]
      have hre : abbrevMonthChars m ++ ' ' :: (dayChars o d ++ ',' :: ' ' ::
          ([digitChar (y / 1000 % 10), digitChar (y / 100 % 10), digitChar (y / 10 % 10)] ++
            [digitChar (y % 10)])) =
          (abbrevMonthChars m ++ ' ' :: (dayChars o d ++ ',' :: ' ' ::
            [digitChar (y / 1000 % 10), digitChar (y / 100 % 10), digitChar (y / 10 % 10)])) ++
            [digitChar (y % 10)] := by
        simp
      rw [hre, dropTrailWs_concat _ _ (digitChar_not_ws _), ← hre]
      rfl
    | dmyDash =>
      show dropTrailWs (dayChars o d ++ '-' :: (numChars o.monthPad m ++ '-' :: yearChars y)) = _
      rw [yearChars_concat]
      have hre : dayChars o d ++ '-' :: (numChars o.monthPad m ++ '-' ::
          ([digitChar (y / 1000 % 10), digitChar (y / 100 % 10), digitChar (y / 10 % 10)] ++
            [digitChar (y % 10)])) =
          (dayChars o d ++ '-' :: (numChars o.monthPad m ++ '-' ::
            [digitChar (y / 1000 % 10), digitChar (y / 100 % 10), digitChar (y / 10 % 10)])) ++
            [digitChar (y % 10)] := by
        simp
      rw [hre, dropTrailWs_concat _ _ (digitChar_not_ws _), ← hre]
      rfl
    | dmySlash =>
      show dropTrailWs (dayChars o d ++ '/' :: (numChars o.monthPad m ++ '/' :: yearChars y)) = _
      rw [yearChars_concat]
      have hre : dayChars o d ++ '/' :: (numChars o.monthPad m ++ '/' ::
          ([digitChar (y / 1000 % 10), digitChar (y / 100 % 10), digitChar (y / 10 % 10)] ++
            [digitChar (y % 10)])) =
          (dayChars o d ++ '/' :: (numChars o.monthPad m ++ '/' ::
            [digitChar (y / 1000 % 10), digitChar (y / 100 % 10), digitChar (y / 10 % 10)])) ++
            [digitChar (y % 10)] := by
        simp
      rw [hre, dropTrailWs_concat _ _ (digitChar_not_ws _), ← hre]
      rfl
  unfold pyStrip
  rw [htail]
  cases f with
  | dmyLong =>
    obtain ⟨ch, cs, hsh, hws⟩ := dayChars_head o d
    show (dayChars o d ++ ' ' :: (fullMonthChars m ++ ' ' :: yearChars y)).dropWhile _ = _
    rw [hsh, List.cons_append, dropWhile_ws_cons _ _ hws, ← List.cons_append, ← hsh]
    rfl
  | mdyShort =>
    obtain ⟨ch, cs, hsh, hws⟩ := abbrevMonth_head m hm1 hm2
    show (abbrevMonthChars m ++ ' ' :: (dayChars o d ++ ',' :: ' ' :: yearChars y)).dropWhile _ = _
    rw [hsh, List.cons_append, dropWhile_ws_cons _ _ hws, ← List.cons_append, ← hsh]
    rfl
  | dmyDash =>
    obtain ⟨ch, cs, hsh, hws⟩ := dayChars_head o d
    show (dayChars o d ++ '-' :: (numChars o.monthPad m ++ '-' :: yearChars y)).dropWhile _ = _
    rw [hsh, List.cons_append, dropWhile_ws_cons _ _ hws, ← List.cons_append, ← hsh]
    rfl
  | dmySlash =>
    obtain ⟨ch, cs, hsh, hws⟩ := dayChars_head o d
    show (dayChars o d ++ '/' :: (numChars o.monthPad m ++ '/' :: yearChars y)).dropWhile _ = _
    rw [hsh, List.cons_append, dropWhile_ws_cons _ _ hws, ← List.cons_append, ← hsh]
    rfl
  | ymd =>
    show (yearChars y ++ '-' :: (numChars o.monthPad m ++ '-' :: dayChars o d)).dropWhile _ = _
    rw [yearChars]
    rw [List.cons_append, dropWhile_ws_cons _ _ (digitChar_not_ws _)]
    rfl


theorem dayAlts_numChars (p : Bool) (d : Nat) (h1 : 1 ≤ d) (h2 : d ≤ 31)
    (c : Char) (rest : List Char) (hc : c.isDigit = false) :
    dayAlts (numChars p d ++ c :: rest) =
      (d, c :: rest) ::
        (if 10 ≤ d then [(d / 10, digitChar (d % 10) :: c :: rest)] else []) := by
  have hc0 : ¬ (c = '0') := fun h => by subst h; exact absurd hc (by decide)
  have hc1 : ¬ (c = '1') := fun h => by subst h; exact absurd hc (by decide)
  by_cases hp : (¬ p = true ∧ d < 10)
  · rw [numChars, if_pos hp]
    obtain ⟨hp1, hp2⟩ := hp
    interval_cases d <;> simp +decide [dayAlts, digitVal, hc, hc0, hc1]
  · rw [numChars, if_neg hp]
    interval_cases d <;> simp +decide [dayAlts, pad2Chars, digitVal, hc, hc0, hc1]


theorem monthAlts_numChars (p : Bool) (m : Nat) (h1 : 1 ≤ m) (h2 : m ≤ 12)
    (c : Char) (rest : List Char) (hc : c.isDigit = false) :
    monthAlts (numChars p m ++ c :: rest) =
      (m, c :: rest) ::
        (if 10 ≤ m then [(1, digitChar (m % 10) :: c :: rest)] else []) := by
  have hc0 : ¬ (c = '0') := fun h => by subst h; exact absurd hc (by decide)
  have hc1 : ¬ (c = '1') := fun h => by subst h; exact absurd hc (by decide)
  have hc2 : ¬ (c = '2') := fun h => by subst h; exact absurd hc (by decide)
  by_cases hp : (¬ p = true ∧ m < 10)
  · rw [numChars, if_pos hp]
    obtain ⟨hp1, hp2⟩ := hp
    interval_cases m <;> simp +decide [monthAlts, digitVal, hc, hc0, hc1, hc2]
  · rw [numChars, if_neg hp]
    interval_cases m <;> simp +decide [monthAlts, pad2Chars, digitVal, hc, hc0, hc1, hc2]

theorem parseY_yearChars (y : Nat) (hy : y ≤ 9999) (rest : List Char) :
    parseY (yearChars y ++ rest) = some (y, rest) := by
  have e1 := digitVal_digitChar (y / 1000 % 10) (Nat.mod_lt _ (by norm_num))
  have e2 := digitVal_digitChar (y / 100 % 10) (Nat.mod_lt _ (by norm_num))
  have e3 := digitVal_digitChar (y / 10 % 10) (Nat.mod_lt _ (by norm_num))
  have e4 := digitVal_digitChar (y % 10) (Nat.mod_lt _ (by norm_num))
  show parseY (digitChar (y / 1000 % 10) :: digitChar (y / 100 % 10) ::
    digitChar (y / 10 % 10) :: digitChar (y % 10) :: rest) = some (y, rest)
  rw [parseY]
  rw [if_pos ⟨digitChar_isDigit _, digitChar_isDigit _, digitChar_isDigit _,
    digitChar_isDigit _⟩]
  rw [e1, e2, e3, e4]
  have : 1000 * (y / 1000 % 10) + 100 * (y / 100 % 10) + 10 * (y / 10 % 10) + y % 10 = y := by
    omega
  rw [this]

theorem parseFullMonth_name (m : Nat) (h1 : 1 ≤ m) (h2 : m ≤ 12) (rest : List Char) :
    parseFullMonth (fullMonthChars m ++ rest) = some (m, rest) := by
  interval_cases m <;>
    simp +decide [parseFullMonth, fullMonthTbl, fullMonthChars, matchCI]

theorem parseAbbrevMonth_name (m : Nat) (h1 : 1 ≤ m) (h2 : m ≤ 12) (rest : List Char) :
    parseAbbrevMonth (abbrevMonthChars m ++ rest) = some (m, rest) := by
  interval_cases m <;>
    simp +decide [parseAbbrevMonth, abbrevMonthTbl, abbrevMonthChars, matchCI]

theorem ws1_sp (l : List Char) (h : ∀ c cs, l = c :: cs → c.isWhitespace = false) :
    ws1 (' ' :: l) = some l := by
  rw [ws1, if_pos (by decide)]
  cases l with
  | nil => rfl
  | cons c cs => rw [List.dropWhile_cons, if_neg (by simp [h c cs rfl])]

theorem ws1_nonws (c : Char) (hc : c.isWhitespace = false) (l : List Char) :
    ws1 (c :: l) = none := by
  rw [ws1, if_neg (by simp [hc])]


theorem digitChar_ne_of_nondigit (c : Char) (hc : c.isDigit = false) (k : Nat) :
    digitChar k ≠ c := by
  intro h
  rw [← h] at hc
  rw [digitChar_isDigit k] at hc
  exact absurd hc (by decide)

theorem lit_ne (ch a : Char) (h : ¬ a = ch) (l : List Char) : lit ch (a :: l) = none := by
  rw [lit, if_neg h]

theorem dayAlts_nondigit_head (a : Char) (ha : a.isDigit = false) (hsp : ¬ a = ' ')
    (l : List Char) : dayAlts (a :: l) = [] := by
  have h3 : ¬ a = '3' := fun h => by subst h; exact absurd ha (by decide)
  have h1 : ¬ a = '1' := fun h => by subst h; exact absurd ha (by decide)
  have h2 : ¬ a = '2' := fun h => by subst h; exact absurd ha (by decide)
  have h0 : ¬ a = '0' := fun h => by subst h; exact absurd ha (by decide)
  cases l with
  | nil => simp [dayAlts, ha, h0]
  | cons b r => simp [dayAlts, ha, h0, h1, h2, h3, hsp]

theorem mem_ite_singleton {α : Type} {c : Prop} [Decidable c] {x p : α}
    (h : p ∈ (if c then [x] else [])) : p = x := by
  by_cases hc : c
  · rw [if_pos hc] at h
    simpa using h
  · rw [if_neg hc] at h
    simp at h

theorem dayAlts_rests (a b : Char) (l : List Char) (p : Nat × List Char)
    (hp : p ∈ dayAlts (a :: b :: l)) : p.2 = b :: l ∨ p.2 = l := by
  simp only [dayAlts, List.mem_append] at hp
  rcases hp with ((((hp | hp) | hp) | hp) | hp) <;>
    rw [mem_ite_singleton hp] <;> simp

theorem parseFullMonth_digitChar (k : Nat) (hk : k < 10) (l : List Char) :
    parseFullMonth (digitChar k :: l) = none := by
  interval_cases k <;>
    simp +decide [parseFullMonth, fullMonthTbl, matchCI]

theorem parseAbbrevMonth_digitChar (k : Nat) (hk : k < 10) (l : List Char) :
    parseAbbrevMonth (digitChar k :: l) = none := by
  interval_cases k <;>
    simp +decide [parseAbbrevMonth, abbrevMonthTbl, matchCI]


theorem daysInMonth_le_31 (y m : Nat) : daysInMonth y m ≤ 31 := by
  unfold daysInMonth
  split
  · split <;> norm_num
  · split <;> norm_num

theorem mkDate_some (y m d : Nat) (h : (PDate.mk y m d).valid) :
    mkDate y m d = some ⟨y, m, d⟩ := by
  rw [mkDate, if_pos h]

theorem mkDate_mem_valid (y m d : Nat) (t : PDate) (h : mkDate y m d = some t) :
    t.valid := by
  rw [mkDate] at h
  split at h
  · cases h
    assumption
  · cases h

theorem numChars_headD (p : Bool) (n : Nat) :
    ∃ k cs, numChars p n = digitChar k :: cs ∧ k < 10 := by
  unfold numChars pad2Chars
  split_ifs
  · exact ⟨n % 10, [], rfl, Nat.mod_lt _ (by norm_num)⟩
  · exact ⟨n / 10 % 10, [digitChar (n % 10)], rfl, Nat.mod_lt _ (by norm_num)⟩

theorem abbrevMonth_headD (m : Nat) (h1 : 1 ≤ m) (h2 : m ≤ 12) :
    ∃ ch cs, abbrevMonthChars m = ch :: cs ∧ ch.isDigit = false ∧
      ch.isWhitespace = false ∧ ¬ ch = ' ' := by
  interval_cases m <;> exact ⟨_, _, rfl, by decide, by decide, by decide⟩

theorem fullMonth_headD (m : Nat) (h1 : 1 ≤ m) (h2 : m ≤ 12) :
    ∃ ch cs, fullMonthChars m = ch :: cs ∧ ch.isDigit = false ∧
      ch.isWhitespace = false ∧ ¬ ch = ' ' := by
  interval_cases m <;> exact ⟨_, _, rfl, by decide, by decide, by decide⟩

theorem ws1_cons_of_head (x rest : List Char) (ch : Char) (cs : List Char)
    (hx : x = ch :: cs) (hws : ch.isWhitespace = false) :
    ws1 (' ' :: (x ++ rest)) = some (x ++ rest) := by
  subst hx
  rw [ws1, if_pos (by decide), List.cons_append, List.dropWhile_cons, if_neg (by simp [hws])]

theorem ws1_yearChars (y : Nat) : ws1 (' ' :: yearChars y) = some (yearChars y) := by
  rw [ws1, if_pos (by decide)]
  congr 1
  show (digitChar (y / 1000 % 10) :: _).dropWhile _ = _
  rw [List.dropWhile_cons, if_neg (by simp [digitChar_not_ws])]
  rfl

theorem parseY_yearChars_nil (y : Nat) (hy : y ≤ 9999) :
    parseY (yearChars y) = some (y, []) := by
  have := parseY_yearChars y hy []
  rwa [List.append_nil] at this

/-- `%d %B %Y`-style formats fail when a non-whitespace separator follows
the day. -/
theorem fmtDxY_none_sep (pm : List Char → Option (Nat × List Char)) (p : Bool)
    (d : Nat) (h1 : 1 ≤ d) (h2 : d ≤ 31) (sep : Char) (hsd : sep.isDigit = false)
    (hsw : sep.isWhitespace = false) (rest : List Char) :
    fmtDxY pm (numChars p d ++ sep :: rest) = none := by
  rw [fmtDxY, dayAlts_numChars p d h1 h2 sep rest hsd]
  apply List.findSome?_eq_none_iff.mpr
  intro x hx
  rcases List.mem_cons.mp hx with rfl | hx
  · simp [ws1_nonws sep hsw]
  · rw [mem_ite_singleton hx]
    simp [ws1_nonws _ (digitChar_not_ws _)]

/-- `%d %B %Y`-style formats fail on a string whose first two characters
are non-whitespace and whose tail is rejected by `\s+`. -/
theorem fmtDxY_none_tails (pm : List Char → Option (Nat × List Char)) (a b : Char)
    (l : List Char) (hb : b.isWhitespace = false) (hl : ws1 l = none) :
    fmtDxY pm (a :: b :: l) = none := by
  rw [fmtDxY]
  apply List.findSome?_eq_none_iff.mpr
  intro x hx
  rcases dayAlts_rests a b l x hx with h | h <;> rw [show x.2 = _ from h]
  · simp [ws1_nonws b hb]
  · simp [hl]

/-- `%d %B %Y`-style formats fail when the string starts with a letter. -/
theorem fmtDxY_none_alpha (pm : List Char → Option (Nat × List Char)) (a : Char)
    (ha : a.isDigit = false) (hsp : ¬ a = ' ') (l : List Char) :
    fmtDxY pm (a :: l) = none := by
  rw [fmtDxY, dayAlts_nondigit_head a ha hsp l]
  rfl

/-- `%B %d, %Y`-style formats fail when the month-name parse fails. -/
theorem fmtXdY_none_pm (pm : List Char → Option (Nat × List Char)) (s : List Char)
    (h : pm s = none) : fmtXdY pm s = none := by
  simp [fmtXdY, h]

/-- `%d-%m-%Y`-style formats fail when the character after the day is not
the separator. -/
theorem fmtDmY_none_sep (sep : Char) (hsepd : sep.isDigit = false) (p : Bool)
    (d : Nat) (h1 : 1 ≤ d) (h2 : d ≤ 31) (c : Char) (hc : c.isDigit = false)
    (hne : ¬ c = sep) (rest : List Char) :
    fmtDmY sep (numChars p d ++ c :: rest) = none := by
  rw [fmtDmY, dayAlts_numChars p d h1 h2 c rest hc]
  apply List.findSome?_eq_none_iff.mpr
  intro x hx
  rcases List.mem_cons.mp hx with rfl | hx
  · simp [lit_ne sep c hne]
  · rw [mem_ite_singleton hx]
    simp [lit_ne sep _ (digitChar_ne_of_nondigit sep hsepd _)]

/-- `%d-%m-%Y`-style formats fail on a string whose second and third
characters both reject the separator literal. -/
theorem fmtDmY_none_tails (sep : Char) (a b : Char) (l : List Char)
    (hb : ¬ b = sep) (hl : lit sep l = none) :
    fmtDmY sep (a :: b :: l) = none := by
  rw [fmtDmY]
  apply List.findSome?_eq_none_iff.mpr
  intro x hx
  rcases dayAlts_rests a b l x hx with h | h <;> rw [show x.2 = _ from h]
  · simp [lit_ne sep b hb]
  · simp [hl]

/-- `%d-%m-%Y`-style formats fail when the string starts with a letter. -/
theorem fmtDmY_none_alpha (sep : Char) (a : Char) (ha : a.isDigit = false)
    (hsp : ¬ a = ' ') (l : List Char) : fmtDmY sep (a :: l) = none := by
  rw [fmtDmY, dayAlts_nondigit_head a ha hsp l]
  rfl

/-- `%Y-%m-%d` fails when the four-digit year parse fails. -/
theorem fmtYmd_none_parseY (s : List Char) (h : parseY s = none) :
    fmtYmd s = none := by
  simp [fmtYmd, h]

theorem parseY_none_second (a b : Char) (hb : b.isDigit = false) (l : List Char) :
    parseY (a :: b :: l) = none := by
  cases l with
  | nil => rfl
  | cons c r =>
    cases r with
    | nil => rfl
    | cons e r2 => simp [parseY, hb]

theorem parseY_none_third (a b c : Char) (hc : c.isDigit = false) (l : List Char) :
    parseY (a :: b :: c :: l) = none := by
  cases l with
  | nil => rfl
  | cons e r2 => simp [parseY, hc]

theorem parseY_none_alpha (a : Char) (ha : a.isDigit = false) (l : List Char) :
    parseY (a :: l) = none := by
  match l with
  | [] => rfl
  | [b] => rfl
  | [b, c] => rfl
  | b :: c :: e :: r => simp [parseY, ha]


theorem dayAlts_numChars_nil (p : Bool) (d : Nat) (h1 : 1 ≤ d) (h2 : d ≤ 31) :
    dayAlts (numChars p d) =
      (d, []) :: (if 10 ≤ d then [(d / 10, [digitChar (d % 10)])] else []) := by
  by_cases hp : (¬ p = true ∧ d < 10)
  · rw [numChars, if_pos hp]
    obtain ⟨hp1, hp2⟩ := hp
    interval_cases d <;> simp +decide [dayAlts, digitVal]
  · rw [numChars, if_neg hp]
    interval_cases d <;> simp +decide [dayAlts, pad2Chars, digitVal]

theorem lit_cons (c : Char) (l : List Char) : lit c (c :: l) = some l := by
  rw [lit, if_pos rfl]

theorem fmtDxY_success (pm : List Char → Option (Nat × List Char)) (p : Bool)
    (d y m : Nat) (h1 : 1 ≤ d) (h2 : d ≤ 31) (hy : y ≤ 9999)
    (X : List Char) (ch : Char) (cs : List Char) (hX : X = ch :: cs)
    (hch : ch.isWhitespace = false)
    (hpm : pm (X ++ ' ' :: yearChars y) = some (m, ' ' :: yearChars y)) :
    fmtDxY pm (numChars p d ++ ' ' :: (X ++ ' ' :: yearChars y)) = some (y, m, d) := by
  rw [fmtDxY, dayAlts_numChars p d h1 h2 ' ' _ (by decide), List.findSome?_cons]
  have hws := ws1_cons_of_head X (' ' :: yearChars y) ch cs hX hch
  simp [hws, hpm, ws1_yearChars, parseY_yearChars_nil y hy]

theorem fmtXdY_success (pm : List Char → Option (Nat × List Char)) (p : Bool)
    (d y m : Nat) (h1 : 1 ≤ d) (h2 : d ≤ 31) (hy : y ≤ 9999) (M : List Char)
    (hpm : pm (M ++ ' ' :: (numChars p d ++ ',' :: ' ' :: yearChars y)) =
      some (m, ' ' :: (numChars p d ++ ',' :: ' ' :: yearChars y))) :
    fmtXdY pm (M ++ ' ' :: (numChars p d ++ ',' :: ' ' :: yearChars y)) =
      some (y, m, d) := by
  obtain ⟨ch, cs, hsh, hws⟩ := numChars_head p d
  have hws1 := ws1_cons_of_head (numChars p d) (',' :: ' ' :: yearChars y) ch cs hsh hws
  rw [fmtXdY]
  simp only [hpm, Option.bind_eq_bind, Option.some_bind]
  simp only [hws1, Option.some_bind]
  rw [dayAlts_numChars p d h1 h2 ',' _ (by decide), List.findSome?_cons]
  simp [lit_cons, ws1_yearChars, parseY_yearChars_nil y hy]

theorem fmtDmY_success (sep : Char) (hsd : sep.isDigit = false) (p q : Bool)
    (d y m : Nat) (hd1 : 1 ≤ d) (hd2 : d ≤ 31) (hm1 : 1 ≤ m) (hm2 : m ≤ 12)
    (hy : y ≤ 9999) :
    fmtDmY sep (numChars p d ++ sep :: (numChars q m ++ sep :: yearChars y)) =
      some (y, m, d) := by
  rw [fmtDmY, dayAlts_numChars p d hd1 hd2 sep _ hsd, List.findSome?_cons]
  simp only [lit_cons, Option.bind_eq_bind, Option.some_bind]
  rw [monthAlts_numChars q m hm1 hm2 sep _ hsd, List.findSome?_cons]
  simp [lit_cons, parseY_yearChars_nil y hy]

theorem fmtYmd_success (p q : Bool) (d y m : Nat) (hd1 : 1 ≤ d) (hd2 : d ≤ 31)
    (hm1 : 1 ≤ m) (hm2 : m ≤ 12) (hy : y ≤ 9999) :
    fmtYmd (yearChars y ++ '-' :: (numChars q m ++ '-' :: numChars p d)) =
      some (y, m, d) := by
  rw [fmtYmd]
  simp only [parseY_yearChars y hy, Option.bind_eq_bind, Option.some_bind]
  simp only [lit_cons, Option.some_bind]
  rw [monthAlts_numChars q m hm1 hm2 '-' _ (by decide), List.findSome?_cons]
  simp only [lit_cons, Option.bind_eq_bind, Option.some_bind]
  rw [dayAlts_numChars_nil p d hd1 hd2, List.findSome?_cons]
  simp


theorem dayChars_eq_numChars (o : RenderOpts) (hno : o.dayOrdinal = false) (d : Nat) :
    dayChars o d = numChars o.dayPad d := by
  simp [dayChars, hno]

theorem tryFormats_dmyLong (o : RenderOpts) (t : PDate) (hv : t.valid)
    (hy4 : 1000 ≤ t.year) (hno : o.dayOrdinal = false) :
    tryFormats (renderSF .dmyLong o t) = some t := by
  obtain ⟨hy1, hy2, hm1, hm2, hd1, hd2⟩ := hv
  obtain ⟨y, m, d⟩ := t
  simp only at *
  have hd31 : d ≤ 31 := le_trans hd2 (daysInMonth_le_31 y m)
  show tryFormats (dayChars o d ++ ' ' :: (fullMonthChars m ++ ' ' :: yearChars y)) = _
  rw [dayChars_eq_numChars o hno]
  obtain ⟨ch, cs, hsh, hchd, hchw, hchsp⟩ := fullMonth_headD m hm1 hm2
  have hf1 := fmtDxY_success parseFullMonth o.dayPad d y m hd1 hd31 hy2
    (fullMonthChars m) ch cs hsh hchw (parseFullMonth_name m hm1 hm2 (' ' :: yearChars y))
  have hmk : mkDate y m d = some ⟨y, m, d⟩ :=
    mkDate_some y m d ⟨hy1, hy2, hm1, hm2, hd1, hd2⟩
  simp only [tryFormats, date_formats, List.findSome?_cons, hf1, Option.bind_eq_bind,
    Option.some_bind, hmk]

theorem tryFormats_mdyShort (o : RenderOpts) (t : PDate) (hv : t.valid)
    (hy4 : 1000 ≤ t.year) (hno : o.dayOrdinal = false) :
    tryFormats (renderSF .mdyShort o t) = some t := by
  obtain ⟨hy1, hy2, hm1, hm2, hd1, hd2⟩ := hv
  obtain ⟨y, m, d⟩ := t
  simp only at *
  have hd31 : d ≤ 31 := le_trans hd2 (daysInMonth_le_31 y m)
  show tryFormats
    (abbrevMonthChars m ++ ' ' :: (dayChars o d ++ ',' :: ' ' :: yearChars y)) = _
  rw [dayChars_eq_numChars o hno]
  obtain ⟨ch, cs, hsh, hchd, hchw, hchsp⟩ := abbrevMonth_headD m hm1 hm2
  have hf12 : ∀ pm, fmtDxY pm (abbrevMonthChars m ++ ' ' ::
      (numChars o.dayPad d ++ ',' :: ' ' :: yearChars y)) = none := by
    intro pm
    rw [hsh, List.cons_append]
    exact fmtDxY_none_alpha pm ch hchd hchsp _
  have hmk : mkDate y m d = some ⟨y, m, d⟩ :=
    mkDate_some y m d ⟨hy1, hy2, hm1, hm2, hd1, hd2⟩
  by_cases hm5 : m = 5
  · subst hm5
    have hpm : parseFullMonth (abbrevMonthChars 5 ++ ' ' ::
        (numChars o.dayPad d ++ ',' :: ' ' :: yearChars y)) =
        some (5, ' ' :: (numChars o.dayPad d ++ ',' :: ' ' :: yearChars y)) := by
      simp +decide [parseFullMonth, fullMonthTbl, abbrevMonthChars, matchCI]
    have hf3 := fmtXdY_success parseFullMonth o.dayPad d y 5 hd1 hd31 hy2
      (abbrevMonthChars 5) hpm
    simp only [tryFormats, date_formats, List.findSome?_cons, hf12,
      Option.bind_eq_bind, Option.none_bind, hf3, Option.some_bind, hmk]
  · have hpm3 : parseFullMonth (abbrevMonthChars m ++ ' ' ::
        (numChars o.dayPad d ++ ',' :: ' ' :: yearChars y)) = none := by
      interval_cases m <;>
        first
        | exact absurd rfl hm5
        | simp +decide [parseFullMonth, fullMonthTbl, abbrevMonthChars, matchCI]
    have hf3 := fmtXdY_none_pm parseFullMonth _ hpm3
    have hf4 := fmtXdY_success parseAbbrevMonth o.dayPad d y m hd1 hd31 hy2
      (abbrevMonthChars m)
      (parseAbbrevMonth_name m hm1 hm2 (' ' :: (numChars o.dayPad d ++ ',' :: ' ' :: yearChars y)))
    simp only [tryFormats, date_formats, List.findSome?_cons, hf12, hf3,
      Option.bind_eq_bind, Option.none_bind, hf4, Option.some_bind, hmk]

theorem tryFormats_dmyDash (o : RenderOpts) (t : PDate) (hv : t.valid)
    (hy4 : 1000 ≤ t.year) (hno : o.dayOrdinal = false) :
    tryFormats (renderSF .dmyDash o t) = some t := by
  obtain ⟨hy1, hy2, hm1, hm2, hd1, hd2⟩ := hv
  obtain ⟨y, m, d⟩ := t
  simp only at *
  have hd31 : d ≤ 31 := le_trans hd2 (daysInMonth_le_31 y m)
  show tryFormats (dayChars o d ++ '-' :: (numChars o.monthPad m ++ '-' :: yearChars y)) = _
  rw [dayChars_eq_numChars o hno]
  have hf12 : ∀ pm, fmtDxY pm (numChars o.dayPad d ++ '-' ::
      (numChars o.monthPad m ++ '-' :: yearChars y)) = none := fun pm =>
    fmtDxY_none_sep pm o.dayPad d hd1 hd31 '-' (by decide) (by decide) _
  obtain ⟨k, cs, hsh, hk⟩ := numChars_headD o.dayPad d
  have hf3 : fmtXdY parseFullMonth (numChars o.dayPad d ++ '-' ::
      (numChars o.monthPad m ++ '-' :: yearChars y)) = none := by
    rw [hsh, List.cons_append]
    exact fmtXdY_none_pm _ _ (parseFullMonth_digitChar k hk _)
  have hf4 : fmtXdY parseAbbrevMonth (numChars o.dayPad d ++ '-' ::
      (numChars o.monthPad m ++ '-' :: yearChars y)) = none := by
    rw [hsh, List.cons_append]
    exact fmtXdY_none_pm _ _ (parseAbbrevMonth_digitChar k hk _)
  have hf5 := fmtDmY_success '-' (by decide) o.dayPad o.monthPad d y m hd1 hd31 hm1 hm2 hy2
  have hmk : mkDate y m d = some ⟨y, m, d⟩ :=
    mkDate_some y m d ⟨hy1, hy2, hm1, hm2, hd1, hd2⟩
  simp only [tryFormats, date_formats, List.findSome?_cons, hf12, hf3, hf4,
    Option.bind_eq_bind, Option.none_bind, hf5, Option.some_bind, hmk]

theorem tryFormats_dmySlash (o : RenderOpts) (t : PDate) (hv : t.valid)
    (hy4 : 1000 ≤ t.year) (hno : o.dayOrdinal = false) :
    tryFormats (renderSF .dmySlash o t) = some t := by
  obtain ⟨hy1, hy2, hm1, hm2, hd1, hd2⟩ := hv
  obtain ⟨y, m, d⟩ := t
  simp only at *
  have hd31 : d ≤ 31 := le_trans hd2 (daysInMonth_le_31 y m)
  show tryFormats (dayChars o d ++ '/' :: (numChars o.monthPad m ++ '/' :: yearChars y)) = _
  rw [dayChars_eq_numChars o hno]
  have hf12 : ∀ pm, fmtDxY pm (numChars o.dayPad d ++ '/' ::
      (numChars o.monthPad m ++ '/' :: yearChars y)) = none := fun pm =>
    fmtDxY_none_sep pm o.dayPad d hd1 hd31 '/' (by decide) (by decide) _
  obtain ⟨k, cs, hsh, hk⟩ := numChars_headD o.dayPad d
  have hf3 : fmtXdY parseFullMonth (numChars o.dayPad d ++ '/' ::
      (numChars o.monthPad m ++ '/' :: yearChars y)) = none := by
    rw [hsh, List.cons_append]
    exact fmtXdY_none_pm _ _ (parseFullMonth_digitChar k hk _)
  have hf4 : fmtXdY parseAbbrevMonth (numChars o.dayPad d ++ '/' ::
      (numChars o.monthPad m ++ '/' :: yearChars y)) = none := by
    rw [hsh, List.cons_append]
    exact fmtXdY_none_pm _ _ (parseAbbrevMonth_digitChar k hk _)
  have hf5 : fmtDmY '-' (numChars o.dayPad d ++ '/' ::
      (numChars o.monthPad m ++ '/' :: yearChars y)) = none :=
    fmtDmY_none_sep '-' (by decide) o.dayPad d hd1 hd31 '/' (by decide) (by decide) _
  have hf6 := fmtDmY_success '/' (by decide) o.dayPad o.monthPad d y m hd1 hd31 hm1 hm2 hy2
  have hmk : mkDate y m d = some ⟨y, m, d⟩ :=
    mkDate_some y m d ⟨hy1, hy2, hm1, hm2, hd1, hd2⟩
  simp only [tryFormats, date_formats, List.findSome?_cons, hf12, hf3, hf4, hf5,
    Option.bind_eq_bind, Option.none_bind, hf6, Option.some_bind, hmk]

theorem tryFormats_ymd (o : RenderOpts) (t : PDate) (hv : t.valid)
    (hy4 : 1000 ≤ t.year) (hno : o.dayOrdinal = false) :
    tryFormats (renderSF .ymd o t) = some t := by
  obtain ⟨hy1, hy2, hm1, hm2, hd1, hd2⟩ := hv
  obtain ⟨y, m, d⟩ := t
  simp only at *
  have hd31 : d ≤ 31 := le_trans hd2 (daysInMonth_le_31 y m)
  show tryFormats (yearChars y ++ '-' :: (numChars o.monthPad m ++ '-' :: dayChars o d)) = _
  rw [dayChars_eq_numChars o hno]
  have hy10 : y / 1000 % 10 < 10 := Nat.mod_lt _ (by norm_num)
  have hshape : yearChars y ++ '-' :: (numChars o.monthPad m ++ '-' :: numChars o.dayPad d) =
      digitChar (y / 1000 % 10) :: digitChar (y / 100 % 10) ::
        (digitChar (y / 10 % 10) :: digitChar (y % 10) :: '-' ::
          (numChars o.monthPad m ++ '-' :: numChars o.dayPad d)) := rfl
  have hf12 : ∀ pm, fmtDxY pm (yearChars y ++ '-' ::
      (numChars o.monthPad m ++ '-' :: numChars o.dayPad d)) = none := by
    intro pm
    rw [hshape]
    exact fmtDxY_none_tails pm _ _ _ (digitChar_not_ws _)
      (ws1_nonws _ (digitChar_not_ws _) _)
  have hf3 : fmtXdY parseFullMonth (yearChars y ++ '-' ::
      (numChars o.monthPad m ++ '-' :: numChars o.dayPad d)) = none := by
    rw [hshape]
    exact fmtXdY_none_pm _ _ (parseFullMonth_digitChar _ hy10 _)
  have hf4 : fmtXdY parseAbbrevMonth (yearChars y ++ '-' ::
      (numChars o.monthPad m ++ '-' :: numChars o.dayPad d)) = none := by
    rw [hshape]
    exact fmtXdY_none_pm _ _ (parseAbbrevMonth_digitChar _ hy10 _)
  have hf56 : ∀ sep : Char, sep.isDigit = false → fmtDmY sep (yearChars y ++ '-' ::
      (numChars o.monthPad m ++ '-' :: numChars o.dayPad d)) = none := by
    intro sep hsep
    rw [hshape]
    exact fmtDmY_none_tails sep _ _ _ (digitChar_ne_of_nondigit sep hsep _)
      (lit_ne sep _ (digitChar_ne_of_nondigit sep hsep _) _)
  have hf7 := fmtYmd_success o.dayPad o.monthPad d y m hd1 hd31 hm1 hm2 hy2
  have hmk : mkDate y m d = some ⟨y, m, d⟩ :=
    mkDate_some y m d ⟨hy1, hy2, hm1, hm2, hd1, hd2⟩
  simp only [tryFormats, date_formats, List.findSome?_cons, hf12, hf3, hf4,
    hf56 '-' (by decide), hf56 '/' (by decide),
    Option.bind_eq_bind, Option.none_bind, hf7, Option.some_bind, hmk]


theorem normalize_renderSF (f : SupportedFmt) (o : RenderOpts) (t : PDate)
    (hv : t.valid) (hy4 : 1000 ≤ t.year) :
    normalize_date_for_compare ⟨renderSF f o t⟩ = ⟨renderLongChars t⟩ := by
  have hm1 : 1 ≤ t.month := hv.2.2.1
  have hm2 : t.month ≤ 12 := hv.2.2.2.1
  unfold normalize_date_for_compare
  have htl : (String.mk (renderSF f o t)).toList = renderSF f o t := rfl
  rw [htl, strip_renderSF f o t hm1 hm2]
  dsimp only
  rw [pyStrip_renderSF f ⟨o.dayPad, o.monthPad, false⟩ t hm1 hm2]
  cases f with
  | dmyLong => rw [tryFormats_dmyLong ⟨o.dayPad, o.monthPad, false⟩ t hv hy4 rfl]
  | mdyShort => rw [tryFormats_mdyShort ⟨o.dayPad, o.monthPad, false⟩ t hv hy4 rfl]
  | dmyDash => rw [tryFormats_dmyDash ⟨o.dayPad, o.monthPad, false⟩ t hv hy4 rfl]
  | dmySlash => rw [tryFormats_dmySlash ⟨o.dayPad, o.monthPad, false⟩ t hv hy4 rfl]
  | ymd => rw [tryFormats_ymd ⟨o.dayPad, o.monthPad, false⟩ t hv hy4 rfl]

theorem tryFormats_some_valid (s : List Char) (t : PDate)
    (h : tryFormats s = some t) : t.valid := by
  unfold tryFormats at h
  obtain ⟨f, hf, hsome⟩ := List.exists_of_findSome?_eq_some h
  obtain ⟨v, hv1, hv2⟩ := Option.bind_eq_some.mp hsome
  exact mkDate_mem_valid _ _ _ t hv2

/-- C9 (amended): `normalize_date_for_compare` is total: on every input it
either returns the canonical long-month rendering of a valid date (when
some parse succeeds) or returns the ordinal-suffix-stripped input (equal to
the original input whenever no ordinal suffix is present); no exception is
raised. -/
theorem normalize_total_spec (s : String) :
    (∃ t : PDate, t.valid ∧ normalize_date_for_compare s = ⟨renderLongChars t⟩) ∨
    normalize_date_for_compare s = ⟨stripOrdinals s.toList⟩ := by
  unfold normalize_date_for_compare
  dsimp only
  cases htf : tryFormats (pyStrip (stripOrdinals s.toList)) with
  | some t => exact Or.inl ⟨t, tryFormats_some_valid _ t htf, rfl⟩
  | none =>
    cases hrf : regexFallback (stripOrdinals s.toList) with
    | some v =>
      obtain ⟨d, m, y⟩ := v
      dsimp only
      cases hmk : mkDate y m d with
      | some t => exact Or.inl ⟨t, mkDate_mem_valid _ _ _ t hmk, rfl⟩
      | none => exact Or.inr rfl
    | none => exact Or.inr rfl

/-- C9 counterexample: on `"31st/02/2023"` every exact format fails, the
regex fallback extracts the impossible 31 February 2023 (so `datetime`
raises and the handler returns `date_str`), yet the result is the
suffix-stripped `"31/02/2023"`, not the original input — the claim's
"returns the input string unchanged" is false. -/
theorem normalize_returns_stripped_input :
    tryFormats (pyStrip (stripOrdinals "31st/02/2023".toList)) = none ∧
    regexFallback (stripOrdinals "31st/02/2023".toList) = some (31, 2, 2023) ∧
    mkDate 2023 2 31 = none ∧
    normalize_date_for_compare "31st/02/2023" = "31/02/2023" ∧
    ¬ ("31/02/2023" = "31st/02/2023") :=
  ⟨by decide, by decide, by decide, by decide, by decide⟩



/-- C2: two renderings of the same valid calendar day (4-digit year) in any
two supported input formats — long month, short month with comma,
`DD-MM-YYYY`, `DD/MM/YYYY`, `YYYY-MM-DD`, with or without ordinal suffixes
or leading zeros — normalise to the same string, namely the canonical
long-month form `'DD Month YYYY'`. -/
theorem normalize_same_calendar_day (f1 f2 : SupportedFmt) (o1 o2 : RenderOpts)
    (t : PDate) (hv : t.valid) (hy4 : 1000 ≤ t.year) :
    normalize_date_for_compare ⟨renderSF f1 o1 t⟩ =
      normalize_date_for_compare ⟨renderSF f2 o2 t⟩ ∧
    normalize_date_for_compare ⟨renderSF f1 o1 t⟩ = ⟨renderLongChars t⟩ := by
  have h1 := normalize_renderSF f1 o1 t hv hy4
  have h2 := normalize_renderSF f2 o2 t hv hy4
  exact ⟨h1.trans h2.symm, h1⟩

/-- Witness for C2: `"Jun 07, 2025"` and `"2025-6-7"` denote the same day
and normalise identically. -/
theorem normalize_same_calendar_day_witness :
    normalize_date_for_compare ⟨renderSF .mdyShort ⟨true, false, false⟩ ⟨2025, 6, 7⟩⟩ =
      normalize_date_for_compare ⟨renderSF .ymd ⟨false, false, false⟩ ⟨2025, 6, 7⟩⟩ ∧
    normalize_date_for_compare ⟨renderSF .mdyShort ⟨true, false, false⟩ ⟨2025, 6, 7⟩⟩ =
      ⟨renderLongChars ⟨2025, 6, 7⟩⟩ :=
  normalize_same_calendar_day .mdyShort .ymd ⟨true, false, false⟩ ⟨false, false, false⟩
    ⟨2025, 6, 7⟩ (by decide) (by decide)

end TaxRulings
